import Mathlib

/-!
# Distributed object store: registry, watcher table, cache bridge, restore loop

A shallow embedding of

* `frameworks/innerkitsimpl/src/adaptor/distributed_object_store_impl.cpp`
  (`DistributedObjectStoreImpl`: `CacheObject`, `RemoveCacheObject`, `CreateObject`,
  `DeleteObject`, `Get`, `Watch`, `UnWatch`, `TriggerRestore`),
* `frameworks/innerkitsimpl/src/adaptor/flat_object_store.cpp`
  (`FlatObjectStore` and `CacheManager`),
* `frameworks/include/common/string_utils.h` (`StringUtils::Join`).

Conventions of the embedding.

* `uint32_t` status codes are natural numbers, `int32_t` values are integers; the two
  conversions between them are written out (`toUInt32`, `toInt32`).
* A pointer to a `DistributedObjectImpl` is the address `new` returned together with the
  immutable session id stored in the pointee; a null pointer is `none`.
* `std::map` is an association list with at most one entry per key; the order of the
  entries is never observed by the embedded code.
* The storage engine, the remote object service and the device list are collaborators
  whose code is outside the embedded files: they are oracles passed in as arguments.
* Calls made to the collaborators are recorded in a list of `Effect`s so that statements
  of the form "no request is issued" can be expressed.
* The restore loop is given as `TriggerRestore.run`, in which every engine call returns,
  and as `TriggerRestore.runGuarded`, which adds what the engine may do while a call is
  under way with `dataMutex_` held; the two agree when every call returns
  (`TriggerRestore.runGuarded_returns`).
-/

namespace OHOS.ObjectStore

/-! ## Status codes and machine integers -/

/-- Modelled from the spec: `objectstore_errors.h` is not among the sources. The success
code is zero ("zero denotes success", spec section 6). -/
def SUCCESS : Nat := 0

/-- Modelled from the spec: `objectstore_errors.h` is not among the sources. The error
constants the embedded code names are parameters of the development; nothing is assumed
about their numbering. -/
structure ErrorCodes where
  ERR_EXIST : Nat
  ERR_DB_NOT_INIT : Nat
  ERR_DB_GET_FAIL : Nat
  ERR_NULL_OBJECT : Nat
  ERR_NULL_OBJECTSTORE : Nat
  ERR_GET_OBJECT : Nat
  ERR_SINGLE_DEVICE : Nat
  ERR_NULL_PTR : Nat

/-- A `uint32_t` error constant: positive ("error codes are small positive integers",
spec section 6) and representable in 32 bits. -/
def isErrorCode (c : Nat) : Prop := 0 < c ∧ c < 4294967296

instance (c : Nat) : Decidable (isErrorCode c) := by
  unfold isErrorCode; infer_instance

/-- Modelled from the spec: every error constant is a positive `uint32_t` value
(spec section 6: "Error codes are small positive integers; zero denotes success"). -/
def ErrorCodes.WF (E : ErrorCodes) : Prop :=
  isErrorCode E.ERR_EXIST ∧ isErrorCode E.ERR_DB_NOT_INIT ∧ isErrorCode E.ERR_DB_GET_FAIL ∧
  isErrorCode E.ERR_NULL_OBJECT ∧ isErrorCode E.ERR_NULL_OBJECTSTORE ∧
  isErrorCode E.ERR_GET_OBJECT ∧ isErrorCode E.ERR_SINGLE_DEVICE ∧ isErrorCode E.ERR_NULL_PTR

instance (E : ErrorCodes) : Decidable E.WF := by
  unfold ErrorCodes.WF; infer_instance

/-- A sample numbering of the error constants, used to evaluate the model on concrete
inputs. -/
def sampleCodes : ErrorCodes where
  ERR_EXIST := 1652
  ERR_DB_NOT_INIT := 1655
  ERR_DB_GET_FAIL := 1658
  ERR_NULL_OBJECT := 1661
  ERR_NULL_OBJECTSTORE := 1663
  ERR_GET_OBJECT := 1664
  ERR_SINGLE_DEVICE := 1667
  ERR_NULL_PTR := 1668

/-- Conversion of an `int32_t` (or any integer) to `uint32_t`: reduction modulo `2^32`. -/
def toUInt32 (x : Int) : Nat := (x % 4294967296).toNat

/-- Conversion of a `uint32_t` to `int32_t`: the two's complement reading of the low
32 bits. -/
def toInt32 (n : Nat) : Int :=
  if n % 4294967296 < 2147483648 then ((n % 4294967296 : Nat) : Int)
  else ((n % 4294967296 : Nat) : Int) - 4294967296

/-- The range of `int32_t`. -/
def isInt32 (x : Int) : Prop := -2147483648 ≤ x ∧ x < 2147483648

instance (x : Int) : Decidable (isInt32 x) := by
  unfold isInt32; infer_instance

/-! ## `std::map` -/

namespace StdMap

variable {κ : Type} {ν : Type} [DecidableEq κ]

/-- The `count` member of `std::map`: 1 when the key is present, 0 otherwise. -/
def count (m : List (κ × ν)) (k : κ) : Nat :=
  if m.any (fun e => decide (e.1 = k)) then 1 else 0

/-- The `find` member of `std::map`: the mapped value, `none` for `end()`. -/
def find (m : List (κ × ν)) (k : κ) : Option ν :=
  match m with
  | [] => none
  | e :: rest => if e.1 = k then some e.2 else find rest k

/-- The `insert_or_assign` member of `std::map` (also `m[k] = v`): an existing entry for
the key has its value replaced, otherwise a new entry is added. -/
def insert_or_assign (m : List (κ × ν)) (k : κ) (v : ν) : List (κ × ν) :=
  match m with
  | [] => [(k, v)]
  | e :: rest => if e.1 = k then (k, v) :: rest else e :: insert_or_assign rest k v

/-- The `erase(key)` member of `std::map`. -/
def erase (m : List (κ × ν)) (k : κ) : List (κ × ν) :=
  m.filter (fun e => decide (e.1 ≠ k))

/-- Reading `m[k]` with `operator[]`: an absent key is first inserted with the
value-initialised mapped value `dflt`; the value and the map after the read are returned. -/
def subscript (m : List (κ × ν)) (k : κ) (dflt : ν) : ν × List (κ × ν) :=
  match find m k with
  | some v => (v, m)
  | none => (dflt, insert_or_assign m k dflt)

end StdMap

/-! ## Collaborators -/

/-- The adapter `WatcherProxy`: the application watcher it wraps (identified by a number)
and the session id held by its base class `FlatObjectWatcher`. -/
structure WatcherProxy where
  objectWatcher_ : Nat
  sessionId_ : String
deriving DecidableEq, Repr

/-- Modelled from the spec: `FlatObjectStorageEngine` is not among the sources. Section 6:
`createTable/deleteTable(sessionId) -> status`,
`registerObserver/unregisterObserver(sessionId, watcherAdapter) -> status`,
`syncAllData(sessionId, deviceIds, onComplete) -> status`. The answers of the engine are
an oracle. -/
structure FlatObjectStorageEngine where
  isOpened_ : Bool
  CreateTable : String → Nat
  DeleteTable : String → Nat
  RegisterObserver : String → WatcherProxy → Nat
  UnRegisterObserver : String → Nat
  SyncAllData : String → List String → Nat

/-- The key/value items of one session: `std::map<std::string, std::vector<uint8_t>>`. -/
abbrev ObjectData := List (String × List Nat)

/-- Modelled from the spec: the remote cache proxy `IObjectService` is not among the
sources. Section 6: `save(bundle, session, device, data, callback)`,
`revokeSave(bundle, session, callback)`, `retrieve(bundle, session, callback)`; each
returns an `int32_t` status. -/
structure IObjectService where
  ObjectStoreSave : String → String → String → ObjectData → Int
  ObjectStoreRevokeSave : String → String → Int
  ObjectStoreRetrieve : String → String → Int

/-- An entry of the transport layer's device list. -/
structure DeviceInfo where
  deviceId : String
deriving DecidableEq, Repr

/-- A call made to a collaborator, or the entry into the blocking wait. -/
inductive Effect where
  | CreateTable (sessionId : String)
  | DeleteTable (sessionId : String)
  | RegisterObserver (sessionId : String) (watcher : WatcherProxy)
  | UnRegisterObserver (sessionId : String)
  | SyncAllData (sessionId : String) (deviceIds : List String)
  | ObjectStoreSave (bundleName sessionId deviceId : String)
  | ObjectStoreRevokeSave (bundleName sessionId : String)
  | ObjectStoreRetrieve (bundleName sessionId : String)
  | Wait
deriving DecidableEq, Repr

/-- The value a function returns together with the collaborator calls it made. -/
structure Traced (α : Type) where
  ret : α
  calls : List Effect

/-! ## `CacheManager` (flat_object_store.cpp) -/

namespace CacheManager

/-- Embeds `CacheManager::SaveObject`: `proxy` is what `ClientAdaptor::GetObjectService()`
returned. The request is issued only when the proxy is available. -/
def SaveObject (E : ErrorCodes) (proxy : Option IObjectService)
    (bundleName sessionId deviceId : String) (objectData : ObjectData) : Traced Int :=
  match proxy with
  | none => ⟨toInt32 E.ERR_NULL_PTR, []⟩
  | some p =>
    ⟨p.ObjectStoreSave bundleName sessionId deviceId objectData,
      [Effect.ObjectStoreSave bundleName sessionId deviceId]⟩

/-- Embeds `CacheManager::RevokeSaveObject`. -/
def RevokeSaveObject (E : ErrorCodes) (proxy : Option IObjectService)
    (bundleName sessionId : String) : Traced Int :=
  match proxy with
  | none => ⟨toInt32 E.ERR_NULL_PTR, []⟩
  | some p =>
    ⟨p.ObjectStoreRevokeSave bundleName sessionId,
      [Effect.ObjectStoreRevokeSave bundleName sessionId]⟩

/-- Embeds `CacheManager::ResumeObject`. -/
def ResumeObject (E : ErrorCodes) (proxy : Option IObjectService)
    (bundleName sessionId : String) : Traced Int :=
  match proxy with
  | none => ⟨toInt32 E.ERR_NULL_PTR, []⟩
  | some p =>
    ⟨p.ObjectStoreRetrieve bundleName sessionId,
      [Effect.ObjectStoreRetrieve bundleName sessionId]⟩

/-- The callback `CacheManager::Save` hands to `SaveObject`: the value it passes to
`conditionLock.Notify` for the per-device result map `results`. `results.at(deviceId)` is
read when `results.count(deviceId) != 0`, that is when `find` succeeds. -/
def saveCallback (E : ErrorCodes) (deviceId : String) (results : List (String × Int)) : Int :=
  match StdMap.find results deviceId with
  | some v => v
  | none => toInt32 E.ERR_DB_GET_FAIL

/-- Embeds `CacheManager::Save`. `delivered` is the result map the remote side hands to the
callback, `none` when the callback is never invoked; in that case `conditionLock.Wait()`
does not return and neither does `Save` (`ret = none`). -/
def Save (E : ErrorCodes) (proxy : Option IObjectService)
    (delivered : Option (List (String × Int)))
    (bundleName sessionId deviceId : String) (objectData : ObjectData) :
    Traced (Option Nat) :=
  let r := SaveObject E proxy bundleName sessionId deviceId objectData
  if toUInt32 r.ret ≠ SUCCESS then
    ⟨some (toUInt32 r.ret), r.calls⟩
  else
    match delivered with
    | none => ⟨none, r.calls ++ [Effect.Wait]⟩
    | some results =>
      let status := saveCallback E deviceId results
      ⟨some (if toUInt32 status = SUCCESS then toUInt32 status else E.ERR_DB_GET_FAIL),
        r.calls ++ [Effect.Wait]⟩

/-- Embeds `CacheManager::RevokeSave`. `delivered` is the result the remote side hands to the
callback, `none` when the callback is never invoked. -/
def RevokeSave (E : ErrorCodes) (proxy : Option IObjectService) (delivered : Option Int)
    (bundleName sessionId : String) : Traced (Option Nat) :=
  let r := RevokeSaveObject E proxy bundleName sessionId
  if toUInt32 r.ret ≠ SUCCESS then
    ⟨some (toUInt32 r.ret), r.calls⟩
  else
    match delivered with
    | none => ⟨none, r.calls ++ [Effect.Wait]⟩
    | some status =>
      ⟨some (if toUInt32 status = SUCCESS then toUInt32 status else E.ERR_DB_GET_FAIL),
        r.calls ++ [Effect.Wait]⟩

end CacheManager

/-! ## `FlatObjectStore` (flat_object_store.cpp) -/

/-- The members of `FlatObjectStore` the embedded functions read. `cacheManager_` is
allocated by the constructor with a throwing `new` and is never null. -/
structure FlatObjectStore where
  bundleName_ : String
  storageEngine_ : FlatObjectStorageEngine

namespace FlatObjectStore

/-- Embeds `FlatObjectStore::CreateObject`. The status of the resume request is discarded. -/
def CreateObject (E : ErrorCodes) (fs : FlatObjectStore) (proxy : Option IObjectService)
    (sessionId : String) : Traced Nat :=
  if !fs.storageEngine_.isOpened_ then
    ⟨E.ERR_DB_NOT_INIT, []⟩
  else
    let status := fs.storageEngine_.CreateTable sessionId
    if status ≠ SUCCESS then
      ⟨status, [Effect.CreateTable sessionId]⟩
    else
      let r := CacheManager.ResumeObject E proxy fs.bundleName_ sessionId
      ⟨SUCCESS, Effect.CreateTable sessionId :: r.calls⟩

/-- Embeds `FlatObjectStore::Delete`. -/
def Delete (E : ErrorCodes) (fs : FlatObjectStore) (sessionId : String) : Traced Nat :=
  if !fs.storageEngine_.isOpened_ then
    ⟨E.ERR_DB_NOT_INIT, []⟩
  else
    let status := fs.storageEngine_.DeleteTable sessionId
    if status ≠ SUCCESS then
      ⟨status, [Effect.DeleteTable sessionId]⟩
    else
      ⟨SUCCESS, [Effect.DeleteTable sessionId]⟩

/-- Embeds `FlatObjectStore::Watch`. -/
def Watch (E : ErrorCodes) (fs : FlatObjectStore) (sessionId : String)
    (watcher : WatcherProxy) : Traced Nat :=
  if !fs.storageEngine_.isOpened_ then
    ⟨E.ERR_DB_NOT_INIT, []⟩
  else
    ⟨fs.storageEngine_.RegisterObserver sessionId watcher,
      [Effect.RegisterObserver sessionId watcher]⟩

/-- Embeds `FlatObjectStore::UnWatch`. -/
def UnWatch (E : ErrorCodes) (fs : FlatObjectStore) (sessionId : String) : Traced Nat :=
  if !fs.storageEngine_.isOpened_ then
    ⟨E.ERR_DB_NOT_INIT, []⟩
  else
    ⟨fs.storageEngine_.UnRegisterObserver sessionId, [Effect.UnRegisterObserver sessionId]⟩

/-- Embeds `FlatObjectStore::SyncAllData`. `devices` is what
`SoftBusAdapter::GetInstance()->GetDeviceList()` returned. -/
def SyncAllData (E : ErrorCodes) (fs : FlatObjectStore) (devices : List DeviceInfo)
    (sessionId : String) : Traced Nat :=
  if !fs.storageEngine_.isOpened_ then
    ⟨E.ERR_DB_NOT_INIT, []⟩
  else
    let deviceIds := devices.map (fun item => item.deviceId)
    ⟨fs.storageEngine_.SyncAllData sessionId deviceIds,
      [Effect.SyncAllData sessionId deviceIds]⟩

end FlatObjectStore

/-! ## `DistributedObjectStoreImpl` (distributed_object_store_impl.cpp) -/

/-- A `DistributedObjectImpl *`: the address of the object and the session id stored in
it (set by the constructor, never changed). -/
structure DistributedObjectImpl where
  addr : Nat
  sessionId_ : String
deriving DecidableEq, Repr

/-- Embeds `DistributedObjectImpl::GetSessionId`. -/
def DistributedObjectImpl.GetSessionId (o : DistributedObjectImpl) : String := o.sessionId_

/-- The members of `DistributedObjectStoreImpl`: the store pointer (`none` is `nullptr`),
the registry `objects_` and the watcher table `watchers_`, keyed by object address. -/
structure DistributedObjectStoreImpl where
  flatObjectStore_ : Option FlatObjectStore
  objects_ : List DistributedObjectImpl
  watchers_ : List (Nat × WatcherProxy)

/-- The result of a member function: the returned value, the store afterwards and the
collaborator calls made. -/
structure Outcome (α : Type) where
  ret : α
  store : DistributedObjectStoreImpl
  calls : List Effect

namespace DistributedObjectStoreImpl

/-- Embeds `DistributedObjectStoreImpl::CacheObject`. `newObject` is the address
`new (std::nothrow)` returned, `none` for `nullptr`. -/
def CacheObject (st : DistributedObjectStoreImpl) (newObject : Option Nat)
    (sessionId : String) : Option DistributedObjectImpl × DistributedObjectStoreImpl :=
  match newObject with
  | none => (none, st)
  | some a =>
    let object : DistributedObjectImpl := ⟨a, sessionId⟩
    (some object, { st with objects_ := st.objects_ ++ [object] })

/-- The erase loop of `RemoveCacheObject` over the registry. -/
def removeLoop (objects : List DistributedObjectImpl) (sessionId : String) :
    List DistributedObjectImpl :=
  match objects with
  | [] => []
  | o :: rest =>
    if o.GetSessionId = sessionId then removeLoop rest sessionId
    else o :: removeLoop rest sessionId

/-- Embeds `DistributedObjectStoreImpl::RemoveCacheObject`. -/
def RemoveCacheObject (st : DistributedObjectStoreImpl) (sessionId : String) :
    DistributedObjectStoreImpl :=
  { st with objects_ := removeLoop st.objects_ sessionId }

/-- Embeds `DistributedObjectStoreImpl::CreateObject`; the returned pointer is `none` for
`nullptr`. -/
def CreateObject (E : ErrorCodes) (st : DistributedObjectStoreImpl)
    (proxy : Option IObjectService) (newObject : Option Nat) (sessionId : String) :
    Outcome (Option DistributedObjectImpl) :=
  match st.flatObjectStore_ with
  | none => ⟨none, st, []⟩
  | some fs =>
    let r := fs.CreateObject E proxy sessionId
    if r.ret ≠ SUCCESS then
      ⟨none, st, r.calls⟩
    else
      let c := st.CacheObject newObject sessionId
      ⟨c.1, c.2, r.calls⟩

/-- Embeds `DistributedObjectStoreImpl::DeleteObject`. -/
def DeleteObject (E : ErrorCodes) (st : DistributedObjectStoreImpl) (sessionId : String) :
    Outcome Nat :=
  match st.flatObjectStore_ with
  | none => ⟨E.ERR_NULL_OBJECTSTORE, st, []⟩
  | some fs =>
    let r := fs.Delete E sessionId
    if r.ret ≠ SUCCESS then
      ⟨r.ret, st, r.calls⟩
    else
      ⟨SUCCESS, st.RemoveCacheObject sessionId, r.calls⟩

/-- The scan of `Get` over the registry: the first object with the session id. -/
def getLoop (objects : List DistributedObjectImpl) (sessionId : String) :
    Option DistributedObjectImpl :=
  match objects with
  | [] => none
  | o :: rest => if o.GetSessionId = sessionId then some o else getLoop rest sessionId

/-- Embeds `DistributedObjectStoreImpl::Get`: the status and what was written to the out
parameter `*object` (`none` when nothing was written). -/
def Get (E : ErrorCodes) (st : DistributedObjectStoreImpl) (sessionId : String) :
    Nat × Option DistributedObjectImpl :=
  match getLoop st.objects_ sessionId with
  | some o => (SUCCESS, some o)
  | none => (E.ERR_GET_OBJECT, none)

/-- Embeds `DistributedObjectStoreImpl::Watch`; `object = none` is a null pointer, `watcher`
identifies the application watcher. -/
def Watch (E : ErrorCodes) (st : DistributedObjectStoreImpl)
    (object : Option DistributedObjectImpl) (watcher : Nat) : Outcome Nat :=
  match object with
  | none => ⟨E.ERR_NULL_OBJECT, st, []⟩
  | some o =>
    match st.flatObjectStore_ with
    | none => ⟨E.ERR_NULL_OBJECTSTORE, st, []⟩
    | some fs =>
      if StdMap.count st.watchers_ o.addr ≠ 0 then
        ⟨E.ERR_EXIST, st, []⟩
      else
        let watcherProxy : WatcherProxy := ⟨watcher, o.GetSessionId⟩
        let r := fs.Watch E o.GetSessionId watcherProxy
        if r.ret ≠ SUCCESS then
          ⟨r.ret, st, r.calls⟩
        else
          ⟨SUCCESS,
            { st with watchers_ := StdMap.insert_or_assign st.watchers_ o.addr watcherProxy },
            r.calls⟩

/-- Embeds `DistributedObjectStoreImpl::UnWatch`. -/
def UnWatch (E : ErrorCodes) (st : DistributedObjectStoreImpl)
    (object : Option DistributedObjectImpl) : Outcome Nat :=
  match object with
  | none => ⟨E.ERR_NULL_OBJECT, st, []⟩
  | some o =>
    match st.flatObjectStore_ with
    | none => ⟨E.ERR_NULL_OBJECTSTORE, st, []⟩
    | some fs =>
      let r := fs.UnWatch E o.GetSessionId
      if r.ret ≠ SUCCESS then
        ⟨r.ret, st, r.calls⟩
      else
        ⟨SUCCESS, { st with watchers_ := StdMap.erase st.watchers_ o.addr }, r.calls⟩

end DistributedObjectStoreImpl

/-- One step in the life of a store instance: a call of the public interface with the
answers of its environment, or a change of the storage engine's own state between two
calls. -/
inductive Call where
  | CreateObject (proxy : Option IObjectService) (newObject : Option Nat) (sessionId : String)
  | DeleteObject (sessionId : String)
  | Get (sessionId : String)
  | Watch (object : Option DistributedObjectImpl) (watcher : Nat)
  | UnWatch (object : Option DistributedObjectImpl)
  | engineChange (engine : FlatObjectStorageEngine)

/-- The store after one step. -/
def Call.apply (E : ErrorCodes) (st : DistributedObjectStoreImpl) :
    Call → DistributedObjectStoreImpl
  | Call.CreateObject proxy newObject sessionId =>
    (st.CreateObject E proxy newObject sessionId).store
  | Call.DeleteObject sessionId => (st.DeleteObject E sessionId).store
  | Call.Get _ => st
  | Call.Watch object watcher => (st.Watch E object watcher).store
  | Call.UnWatch object => (st.UnWatch E object).store
  | Call.engineChange engine =>
    { st with flatObjectStore_ :=
        st.flatObjectStore_.map (fun fs => { fs with storageEngine_ := engine }) }

/-- The store after a sequence of steps. -/
def runCalls (E : ErrorCodes) (st : DistributedObjectStoreImpl) (calls : List Call) :
    DistributedObjectStoreImpl :=
  calls.foldl (Call.apply E) st

/-! ## `TriggerRestore` (distributed_object_store_impl.cpp) -/

/-- Modelled from the spec: the header declaring `enum SyncStatus` is not among the
sources. Section 3 lists the enumerators as START, SYNCING, SUCCESS, FAIL; the first one
is the value a value-initialised `SyncStatus` has. -/
inductive SyncStatus where
  | SYNC_START
  | SYNCING
  | SYNC_SUCCESS
  | SYNC_FAIL
deriving DecidableEq, Repr

/-- The per-device status `DistributedDB::DBStatus` of the storage library, as a number. -/
abbrev DBStatus := Nat

/-- Modelled from the spec: `DistributedDB::OK` belongs to the storage library, which is
not among the sources; it is the one status that counts as success ("every device reports
OK", section 4.3). Only equality with it is ever tested. -/
def DistributedDB.OK : DBStatus := 0

/-- The bound `MAX_RETRY_SIZE` of the round loop. -/
def MAX_RETRY_SIZE : Nat := 5000

/-- The local state of one `TriggerRestore` run: the status map, and the observations
made of the run (the calls of `flatObjectStore_->SyncAllData` as pairs of round and session
id, the engine calls, the number of rounds begun, of sleeps and of notifier calls). -/
structure RestoreState where
  syncStatus : List (String × SyncStatus)
  requests : List (Nat × String)
  calls : List Effect
  rounds : Nat
  sleeps : Nat
  notified : Nat

/-- What one round of the loop meets in its environment: the registry `objects_` as it is
while the round holds the lock, the store behind the (non-null) pointer
`flatObjectStore_`, the device list, the completion callbacks the engine invokes between
the request phase and the scan of the status map (session id and per-device statuses), and
those it invokes after the scan, before the next round takes the lock. -/
structure RoundEnv where
  objects_ : List DistributedObjectImpl
  flatObjectStore_ : FlatObjectStore
  devices : List DeviceInfo
  completions : List (String × List (String × DBStatus))
  lateCompletions : List (String × List (String × DBStatus))

namespace TriggerRestore

/-- The status map built before the first round: `syncStatus[id] = SYNC_START` for every
registered object. -/
def initStatus (objects : List DistributedObjectImpl) : List (String × SyncStatus) :=
  objects.foldl (fun m item => StdMap.insert_or_assign m item.GetSessionId SyncStatus.SYNC_START)
    []

/-- The status the callback `onComplete` computes from the per-device statuses. -/
def onCompleteResult (devices : List (String × DBStatus)) : SyncStatus :=
  devices.foldl
    (fun result device => if device.2 ≠ DistributedDB.OK then SyncStatus.SYNC_FAIL else result)
    SyncStatus.SYNC_SUCCESS

/-- The callback `onComplete` created for the object with session id `sessionId`. -/
def onComplete (syncStatus : List (String × SyncStatus)) (sessionId : String)
    (devices : List (String × DBStatus)) : List (String × SyncStatus) :=
  StdMap.insert_or_assign syncStatus sessionId (onCompleteResult devices)

/-- The engine invoking a list of completion callbacks, one after the other. -/
def deliver (rs : RestoreState) (completions : List (String × List (String × DBStatus))) :
    RestoreState :=
  completions.foldl (fun r c => { r with syncStatus := onComplete r.syncStatus c.1 c.2 }) rs

/-- The body of the inner loop for one registered object, in round `i`. Both reads of
`syncStatus[id]` in the condition go through `operator[]`, which inserts a
value-initialised entry for an absent key. -/
def syncItem (E : ErrorCodes) (env : RoundEnv) (i : Nat) (rs : RestoreState)
    (item : DistributedObjectImpl) : RestoreState :=
  let cur := StdMap.subscript rs.syncStatus item.GetSessionId SyncStatus.SYNC_START
  if cur.1 ≠ SyncStatus.SYNC_SUCCESS ∧ cur.1 ≠ SyncStatus.SYNCING then
    let result := env.flatObjectStore_.SyncAllData E env.devices item.GetSessionId
    let m :=
      if result.ret = SUCCESS then
        StdMap.insert_or_assign cur.2 item.GetSessionId SyncStatus.SYNCING
      else if result.ret = E.ERR_SINGLE_DEVICE then
        StdMap.insert_or_assign cur.2 item.GetSessionId SyncStatus.SYNC_SUCCESS
      else cur.2
    { rs with
      syncStatus := m
      requests := rs.requests ++ [(i, item.GetSessionId)]
      calls := rs.calls ++ result.calls }
  else
    { rs with syncStatus := cur.2 }

/-- The scan of the status map that computes `isFinished`. -/
def isFinished (syncStatus : List (String × SyncStatus)) : Bool :=
  match syncStatus with
  | [] => true
  | item :: rest => if item.2 ≠ SyncStatus.SYNC_SUCCESS then false else isFinished rest

/-- Round `i` of the loop: the request phase over the registry, the scan, the sleep when
the scan found a session that is not `SYNC_SUCCESS`; the callbacks of the environment run
where `RoundEnv` places them. The body has no `break`. -/
def round (E : ErrorCodes) (env : Nat → RoundEnv) (i : Nat) (rs : RestoreState) :
    RestoreState :=
  let rs1 := (env i).objects_.foldl (syncItem E (env i) i) { rs with rounds := rs.rounds + 1 }
  let rs2 := deliver rs1 (env i).completions
  let rs3 := if !isFinished rs2.syncStatus then { rs2 with sleeps := rs2.sleeps + 1 } else rs2
  deliver rs3 (env i).lateCompletions

/-- The state after the rounds `0, ..., n - 1`. -/
def loop (E : ErrorCodes) (env : Nat → RoundEnv) : Nat → RestoreState → RestoreState
  | 0, rs => rs
  | n + 1, rs => round E env n (loop E env n rs)

/-- The state in which the first round starts. -/
def start (objects : List DistributedObjectImpl) : RestoreState :=
  { syncStatus := initStatus objects, requests := [], calls := [], rounds := 0, sleeps := 0,
    notified := 0 }

/-- The body of the thread `DistributedObjectStoreImpl::TriggerRestore` starts: `objects`
is the registry when the status map is initialised, `env i` the environment of round `i`.
The loop runs `i` from 0 while `i < MAX_RETRY_SIZE`; the notifier is called after it. -/
def run (E : ErrorCodes) (objects : List DistributedObjectImpl) (env : Nat → RoundEnv) :
    RestoreState :=
  let rs := loop E env MAX_RETRY_SIZE (start objects)
  { rs with notified := rs.notified + 1 }

/-! The run with the lock made explicit. `round` lets every `SyncAllData` call return and
places the completion callbacks outside the request phase. The definitions below add what
the engine may do while a `SyncAllData` call is still under way, with `dataMutex_` held by
the calling thread. -/

/-- The request phase of round `i`: the inner loop over the registry, run while the lock
is held (the first step of `round`). -/
def requestPhase (E : ErrorCodes) (env : RoundEnv) (i : Nat) (rs : RestoreState) :
    RestoreState :=
  env.objects_.foldl (syncItem E env i) rs

/-- The status the loop reads for a session, `syncStatus[id]`: the mapped value, and
`SYNC_START` for a session without entry. -/
def statusRead (m : List (String × SyncStatus)) (sessionId : String) : SyncStatus :=
  (StdMap.subscript m sessionId SyncStatus.SYNC_START).1

/-- The status read for the session is `SYNC_START` or `SYNC_FAIL`. -/
def StartOrFail (m : List (String × SyncStatus)) (sessionId : String) : Prop :=
  statusRead m sessionId = SyncStatus.SYNC_START ∨
  statusRead m sessionId = SyncStatus.SYNC_FAIL

/-- Every sync request of the run is answered with the single-device status. -/
def SingleDevice (E : ErrorCodes) (env : Nat → RoundEnv) : Prop :=
  ∀ i s, ((env i).flatObjectStore_.SyncAllData E (env i).devices s).ret = E.ERR_SINGLE_DEVICE

/-- No completion callback invoked during the run reports a device status other than
OK. -/
def NoFailureReported (env : Nat → RoundEnv) : Prop :=
  ∀ i, ∀ c ∈ (env i).completions ++ (env i).lateCompletions,
    ∀ device ∈ c.2, device.2 = DistributedDB.OK

/-- The status map holds `SYNC_SUCCESS` for every entry. -/
def AllSuccess (m : List (String × SyncStatus)) : Prop :=
  ∀ e ∈ m, e.2 = SyncStatus.SYNC_SUCCESS

/-- The state of a run in which every tracked session is `SYNC_SUCCESS`, every session
of `sessions` is tracked, and every request recorded for a session of `sessions` was
issued in round 0. -/
def Settled (sessions : List String) (rs : RestoreState) : Prop :=
  AllSuccess rs.syncStatus ∧
  (∀ k ∈ sessions, k ∈ rs.syncStatus.map Prod.fst) ∧
  (∀ r ∈ rs.requests, r.2 ∈ sessions → r.1 = 0)

/-- The status map during the request phase of the first round: no key occurs twice, and
an entry that is not yet `SYNC_SUCCESS` is `SYNC_START`, belongs to a session of
`sessions` and has not been reached by the phase (`reached`). -/
def Pending (sessions : List String) (reached : String → Prop)
    (m : List (String × SyncStatus)) : Prop :=
  (m.map Prod.fst).Nodup ∧
  ∀ e ∈ m, e.2 = SyncStatus.SYNC_SUCCESS ∨
    (e.2 = SyncStatus.SYNC_START ∧ ¬ reached e.1 ∧ e.1 ∈ sessions)

end TriggerRestore

/-! ## `StringUtils` (string_utils.h) -/

/-- Embeds `StringUtils::Join(separator, items)`: the stream receives the item alone while
it is empty, and the separator followed by the item otherwise. -/
def StringUtils.Join (separator : String) (items : List String) : String :=
  items.foldl
    (fun stream item => if stream.isEmpty then stream ++ item else stream ++ separator ++ item)
    ""

/-- Plain separator-joining, in the words of the claim: the concatenation of the items
with the separator inserted between consecutive items. -/
def StringUtils.plainJoin (separator : String) : List String → String
  | [] => ""
  | [item] => item
  | item :: next :: rest => item ++ separator ++ StringUtils.plainJoin separator (next :: rest)

/-- The list of items from which all leading empty items have been dropped. -/
def StringUtils.dropLeadingEmpty (items : List String) : List String :=
  items.dropWhile (fun item => item.isEmpty)

/-! ## Sample inputs -/

/-- An opened storage engine that accepts every request. -/
def acceptingEngine : FlatObjectStorageEngine where
  isOpened_ := true
  CreateTable := fun _ => SUCCESS
  DeleteTable := fun _ => SUCCESS
  RegisterObserver := fun _ _ => SUCCESS
  UnRegisterObserver := fun _ => SUCCESS
  SyncAllData := fun _ _ => SUCCESS

/-- A store instance right after construction over an accepting engine: empty registry,
empty watcher table. -/
def freshStore : DistributedObjectStoreImpl where
  flatObjectStore_ := some { bundleName_ := "bundle", storageEngine_ := acceptingEngine }
  objects_ := []
  watchers_ := []

/-- The handle `CreateObject("A")` returns when `new` yields address 1. -/
def handleA : DistributedObjectImpl := ⟨1, "A"⟩

/-- The store after `CreateObject("A")` and `Watch(handleA, 7)` on a fresh store. -/
def watchedStore : DistributedObjectStoreImpl :=
  runCalls sampleCodes freshStore
    [Call.CreateObject none (some 1) "A", Call.Watch (some handleA) 7]

/-- A registry holding two handles of session "A" and one of session "B". -/
def twoHandlesStore : DistributedObjectStoreImpl where
  flatObjectStore_ := some { bundleName_ := "bundle", storageEngine_ := acceptingEngine }
  objects_ := [⟨1, "A"⟩, ⟨2, "B"⟩, ⟨3, "A"⟩]
  watchers_ := []

/-- An opened storage engine that refuses observer registration with status 1662 and
accepts everything else. -/
def refusingEngine : FlatObjectStorageEngine :=
  { acceptingEngine with RegisterObserver := fun _ _ => 1662 }

/-- A store over the refusing engine, holding the handle of session "A" and a watcher
registration for another object at address 9. -/
def refusingStore : DistributedObjectStoreImpl where
  flatObjectStore_ := some { bundleName_ := "bundle", storageEngine_ := refusingEngine }
  objects_ := [handleA]
  watchers_ := [(9, ⟨3, "Z"⟩)]

/-- A remote object service that accepts every request. -/
def acceptingService : IObjectService where
  ObjectStoreSave := fun _ _ _ _ => 0
  ObjectStoreRevokeSave := fun _ _ => 0
  ObjectStoreRetrieve := fun _ _ => 0

/-- An opened storage engine that answers every sync request with the single-device
status of `sampleCodes`. -/
def singleDeviceEngine : FlatObjectStorageEngine :=
  { acceptingEngine with SyncAllData := fun _ _ => 1667 }

/-- A registry of two sessions. -/
def twoSessions : List DistributedObjectImpl := [⟨1, "A"⟩, ⟨2, "B"⟩]

/-- An environment that shows every round the registry `twoSessions` over the
single-device engine, with one local device and no completion callback. -/
def singleDeviceEnv : Nat → RoundEnv := fun _ =>
  { objects_ := twoSessions
    flatObjectStore_ := { bundleName_ := "bundle", storageEngine_ := singleDeviceEngine }
    devices := [⟨"local"⟩]
    completions := []
    lateCompletions := [] }

/-- An environment over the accepting engine with two devices and no completion callback,
in which the registry holds session "A" in round 0 and the sessions "A" and "B" from
round 1 on: "B" is created while the run is under way. -/
def lateJoinEnv : Nat → RoundEnv := fun i =>
  { objects_ := if i = 0 then [⟨1, "A"⟩] else [⟨1, "A"⟩, ⟨2, "B"⟩]
    flatObjectStore_ := { bundleName_ := "bundle", storageEngine_ := acceptingEngine }
    devices := [⟨"d1"⟩, ⟨"d2"⟩]
    completions := []
    lateCompletions := [] }

/-- The registry holds at most one handle per session id. -/
def AtMostOnePerSession (st : DistributedObjectStoreImpl) : Prop :=
  (st.objects_.map DistributedObjectImpl.GetSessionId).Nodup

instance (st : DistributedObjectStoreImpl) : Decidable (AtMostOnePerSession st) := by
  unfold AtMostOnePerSession; infer_instance

/-- Along the sequence `calls` started in `st`, every `CreateObject(s)` made while a handle
with session id `s` is registered fails (returns null). -/
def CreatesOnlyAbsent (E : ErrorCodes) : DistributedObjectStoreImpl → List Call → Prop
  | _, [] => True
  | st, c :: rest =>
    (∀ proxy newObject s, c = Call.CreateObject proxy newObject s →
      s ∈ st.objects_.map DistributedObjectImpl.GetSessionId →
      (st.CreateObject E proxy newObject s).ret = none) ∧
    CreatesOnlyAbsent E (c.apply E st) rest

/-- Two `CreateObject("A")` calls, `new` yielding the addresses 1 and 2. -/
def createTwice : List Call :=
  [Call.CreateObject none (some 1) "A", Call.CreateObject none (some 2) "A"]

/-- A life cycle in which session "A" is created, deleted and created again, and session
"B" is created once. -/
def createDeleteCreate : List Call :=
  [Call.CreateObject none (some 1) "A", Call.CreateObject none (some 2) "B",
    Call.DeleteObject "A", Call.CreateObject none (some 3) "A"]

/-! ## The registry: `CreateObject`, `DeleteObject`, `Get` -/

namespace DistributedObjectStoreImpl

theorem getLoop_of_mem (objects : List DistributedObjectImpl) (s : String)
    (h : ∃ o ∈ objects, o.sessionId_ = s) :
    ∃ o, getLoop objects s = some o ∧ o.sessionId_ = s := by
  induction objects with
  | nil => obtain ⟨o, ho, _⟩ := h; cases ho
  | cons a rest ih =>
    unfold getLoop
    by_cases ha : a.GetSessionId = s
    · exact ⟨a, by simp [ha], ha⟩
    · obtain ⟨o, ho, hs⟩ := h
      rcases List.mem_cons.mp ho with rfl | hmem
      · exact absurd hs ha
      · simpa [ha] using ih ⟨o, hmem, hs⟩

theorem mem_removeLoop (objects : List DistributedObjectImpl) (s : String)
    (o : DistributedObjectImpl) :
    o ∈ removeLoop objects s ↔ o ∈ objects ∧ o.sessionId_ ≠ s := by
  induction objects with
  | nil => simp [removeLoop]
  | cons a rest ih =>
    unfold removeLoop
    by_cases ha : a.GetSessionId = s
    · simp only [ha, if_true, ih, List.mem_cons]
      constructor
      · rintro ⟨h1, h2⟩; exact ⟨Or.inr h1, h2⟩
      · rintro ⟨h1 | h1, h2⟩
        · subst h1; exact absurd ha h2
        · exact ⟨h1, h2⟩
    · simp only [ha, if_false, List.mem_cons, ih]
      constructor
      · rintro (h1 | ⟨h1, h2⟩)
        · subst h1; exact ⟨Or.inl rfl, ha⟩
        · exact ⟨Or.inr h1, h2⟩
      · rintro ⟨h1 | h1, h2⟩
        · exact Or.inl h1
        · exact Or.inr ⟨h1, h2⟩

theorem getLoop_eq_none (objects : List DistributedObjectImpl) (s : String)
    (h : ∀ o ∈ objects, o.sessionId_ ≠ s) : getLoop objects s = none := by
  induction objects with
  | nil => rfl
  | cons a rest ih =>
    unfold getLoop
    have ha : ¬ a.GetSessionId = s := h a (List.mem_cons_self _ _)
    simp only [ha, if_false]
    exact ih (fun o ho => h o (List.mem_cons_of_mem _ ho))

theorem CreateObject_objects (E : ErrorCodes) (st : DistributedObjectStoreImpl)
    (proxy : Option IObjectService) (newObject : Option Nat) (s : String) :
    (st.CreateObject E proxy newObject s).store.objects_ = st.objects_ ∨
    ∃ a, (st.CreateObject E proxy newObject s).ret = some ⟨a, s⟩ ∧
      (st.CreateObject E proxy newObject s).store.objects_ = st.objects_ ++ [⟨a, s⟩] := by
  unfold CreateObject
  cases hfs : st.flatObjectStore_ with
  | none => exact Or.inl rfl
  | some fs =>
    by_cases hr : (fs.CreateObject E proxy s).ret ≠ SUCCESS
    · simp [hr]
    · cases newObject with
      | none => simp [hr, CacheObject]
      | some a => simp [hr, CacheObject]

theorem CreateObject_ret (E : ErrorCodes) (st : DistributedObjectStoreImpl)
    (proxy : Option IObjectService) (newObject : Option Nat) (s : String)
    (h : (st.CreateObject E proxy newObject s).ret ≠ none) :
    ∃ o ∈ (st.CreateObject E proxy newObject s).store.objects_, o.sessionId_ = s := by
  rcases CreateObject_objects E st proxy newObject s with h1 | ⟨a, h1, h2⟩
  · exfalso
    apply h
    unfold CreateObject at h1 ⊢
    cases hfs : st.flatObjectStore_ with
    | none => rfl
    | some fs =>
      simp only [hfs] at h1 ⊢
      by_cases hr : (fs.CreateObject E proxy s).ret ≠ SUCCESS
      · simp [hr]
      · cases newObject with
        | none => simp [hr, CacheObject]
        | some a => simp [hr, CacheObject] at h1
  · exact ⟨⟨a, s⟩, by simp [h2], rfl⟩

theorem DeleteObject_objects (E : ErrorCodes) (st : DistributedObjectStoreImpl) (s : String) :
    (st.DeleteObject E s).store.objects_ = st.objects_ ∨
    (st.DeleteObject E s).store.objects_ = removeLoop st.objects_ s := by
  unfold DeleteObject
  cases hfs : st.flatObjectStore_ with
  | none => exact Or.inl rfl
  | some fs =>
    by_cases hr : (fs.Delete E s).ret ≠ SUCCESS
    · simp [hr]
    · simp [hr, RemoveCacheObject]

theorem Watch_objects (E : ErrorCodes) (st : DistributedObjectStoreImpl)
    (object : Option DistributedObjectImpl) (w : Nat) :
    (st.Watch E object w).store.objects_ = st.objects_ := by
  unfold Watch
  cases object with
  | none => rfl
  | some o =>
    cases hfs : st.flatObjectStore_ with
    | none => rfl
    | some fs =>
      simp only
      split
      · rfl
      · split <;> rfl

theorem UnWatch_objects (E : ErrorCodes) (st : DistributedObjectStoreImpl)
    (object : Option DistributedObjectImpl) :
    (st.UnWatch E object).store.objects_ = st.objects_ := by
  unfold UnWatch
  cases object with
  | none => rfl
  | some o =>
    cases hfs : st.flatObjectStore_ with
    | none => rfl
    | some fs =>
      simp only
      split <;> rfl

end DistributedObjectStoreImpl

theorem Call.apply_keeps (E : ErrorCodes) (s : String) (st : DistributedObjectStoreImpl)
    (c : Call) (hc : ∀ s', c = Call.DeleteObject s' → s' ≠ s)
    (h : ∃ o ∈ st.objects_, o.sessionId_ = s) :
    ∃ o ∈ (c.apply E st).objects_, o.sessionId_ = s := by
  obtain ⟨o, ho, hs⟩ := h
  cases c with
  | CreateObject proxy newObject s1 =>
    refine ⟨o, ?_, hs⟩
    show o ∈ (st.CreateObject E proxy newObject s1).store.objects_
    rcases DistributedObjectStoreImpl.CreateObject_objects E st proxy newObject s1 with
      h1 | ⟨a, _, h1⟩
    · rw [h1]; exact ho
    · rw [h1]; exact List.mem_append_left _ ho
  | DeleteObject s1 =>
    refine ⟨o, ?_, hs⟩
    show o ∈ (st.DeleteObject E s1).store.objects_
    rcases DistributedObjectStoreImpl.DeleteObject_objects E st s1 with h1 | h1
    · rw [h1]; exact ho
    · rw [h1, DistributedObjectStoreImpl.mem_removeLoop]
      exact ⟨ho, fun e => hc s1 rfl (e.symm.trans hs)⟩
  | Get s1 => exact ⟨o, ho, hs⟩
  | Watch object w =>
    refine ⟨o, ?_, hs⟩
    show o ∈ (st.Watch E object w).store.objects_
    rw [DistributedObjectStoreImpl.Watch_objects]; exact ho
  | UnWatch object =>
    refine ⟨o, ?_, hs⟩
    show o ∈ (st.UnWatch E object).store.objects_
    rw [DistributedObjectStoreImpl.UnWatch_objects]; exact ho
  | engineChange engine => exact ⟨o, ho, hs⟩

theorem runCalls_keeps (E : ErrorCodes) (s : String) (calls : List Call) :
    ∀ st : DistributedObjectStoreImpl,
      (∀ s', Call.DeleteObject s' ∈ calls → s' ≠ s) →
      (∃ o ∈ st.objects_, o.sessionId_ = s) →
      ∃ o ∈ (runCalls E st calls).objects_, o.sessionId_ = s := by
  induction calls with
  | nil => intro st _ h; exact h
  | cons c rest ih =>
    intro st hc h
    show ∃ o ∈ (runCalls E (c.apply E st) rest).objects_, o.sessionId_ = s
    apply ih
    · intro s' hs'; exact hc s' (List.mem_cons_of_mem _ hs')
    · apply Call.apply_keeps E s st c _ h
      intro s' hs'; exact hc s' (hs' ▸ List.mem_cons_self _ _)

/-- Claim C1. When `CreateObject(s)` returns a non-null handle, `Get(s)` returns SUCCESS
and writes a handle whose session id is `s`, and it still does after any sequence of
further `CreateObject`, `Get`, `Watch`, `UnWatch` calls, engine state changes and
`DeleteObject` calls on session ids other than `s`. -/
theorem create_then_get_until_delete (E : ErrorCodes) (st : DistributedObjectStoreImpl)
    (proxy : Option IObjectService) (newObject : Option Nat) (s : String)
    (calls : List Call)
    (hcreate : (st.CreateObject E proxy newObject s).ret ≠ none)
    (hcalls : ∀ s', Call.DeleteObject s' ∈ calls → s' ≠ s) :
    ∃ h : DistributedObjectImpl,
      (runCalls E (st.CreateObject E proxy newObject s).store calls).Get E s
        = (SUCCESS, some h) ∧ h.GetSessionId = s := by
  have hmem := runCalls_keeps E s calls _ hcalls
    (DistributedObjectStoreImpl.CreateObject_ret E st proxy newObject s hcreate)
  obtain ⟨o, ho, hs⟩ := DistributedObjectStoreImpl.getLoop_of_mem _ s hmem
  exact ⟨o, by simp [DistributedObjectStoreImpl.Get, ho], hs⟩

/-- Witness for claim C1: on a fresh store, `CreateObject("A")` succeeds, and after a
second `CreateObject`, a `Watch`, an `UnWatch` and `DeleteObject("B")`, `Get("A")` still
finds a handle of session "A". -/
theorem create_then_get_until_delete_witness :
    ∃ h : DistributedObjectImpl,
      (runCalls sampleCodes (freshStore.CreateObject sampleCodes none (some 1) "A").store
        [Call.CreateObject none (some 2) "B", Call.Watch (some handleA) 7,
          Call.UnWatch (some handleA), Call.DeleteObject "B"]).Get sampleCodes "A"
        = (SUCCESS, some h) ∧ h.GetSessionId = "A" :=
  create_then_get_until_delete sampleCodes freshStore none (some 1) "A"
    [Call.CreateObject none (some 2) "B", Call.Watch (some handleA) 7,
      Call.UnWatch (some handleA), Call.DeleteObject "B"]
    (by decide) (by simp)

theorem ErrorCodes.WF.null_objectstore_ne (E : ErrorCodes) (hE : E.WF) :
    E.ERR_NULL_OBJECTSTORE ≠ SUCCESS := by
  have h := hE.2.2.2.2.1.1
  unfold SUCCESS; omega

theorem DeleteObject_success (E : ErrorCodes) (hE : E.WF) (st : DistributedObjectStoreImpl)
    (s : String) (h : (st.DeleteObject E s).ret = SUCCESS) :
    (st.DeleteObject E s).store = st.RemoveCacheObject s := by
  unfold DistributedObjectStoreImpl.DeleteObject at h ⊢
  cases hfs : st.flatObjectStore_ with
  | none =>
    simp only [hfs] at h
    exact absurd h (ErrorCodes.WF.null_objectstore_ne E hE)
  | some fs =>
    simp only [hfs] at h ⊢
    by_cases hr : (fs.Delete E s).ret ≠ SUCCESS
    · rw [if_pos hr] at h
      exact absurd h hr
    · simp [hr]

/-- Claim C2. After `DeleteObject(s)` has returned SUCCESS, `Get(s)` returns
`ERR_GET_OBJECT` and writes no handle, whatever the registry held before (any number of
handles with session id `s`). -/
theorem delete_then_get_not_found (E : ErrorCodes) (hE : E.WF)
    (st : DistributedObjectStoreImpl) (s : String)
    (hdel : (st.DeleteObject E s).ret = SUCCESS) :
    (st.DeleteObject E s).store.Get E s = (E.ERR_GET_OBJECT, none) := by
  rw [DeleteObject_success E hE st s hdel]
  have hnone : DistributedObjectStoreImpl.getLoop
      (DistributedObjectStoreImpl.removeLoop st.objects_ s) s = none :=
    DistributedObjectStoreImpl.getLoop_eq_none _ s
      (fun o ho => ((DistributedObjectStoreImpl.mem_removeLoop _ s o).mp ho).2)
  simp [DistributedObjectStoreImpl.Get, DistributedObjectStoreImpl.RemoveCacheObject, hnone]

/-- Witness for claim C2: a registry holding two handles of session "A" and one of
session "B"; `DeleteObject("A")` succeeds and `Get("A")` then finds nothing. -/
theorem delete_then_get_not_found_witness :
    (twoHandlesStore.DeleteObject sampleCodes "A").ret = SUCCESS ∧
    (twoHandlesStore.DeleteObject sampleCodes "A").store.Get sampleCodes "A"
      = (sampleCodes.ERR_GET_OBJECT, none) :=
  ⟨by decide, delete_then_get_not_found sampleCodes (by decide) twoHandlesStore "A" (by decide)⟩

/-- Counterexample to claim C3. On a fresh store, `CreateObject("A")` yields the handle
`handleA`, `Watch(handleA, 7)` registers a watcher for it; `DeleteObject("A")` then
returns SUCCESS, and the watcher table still holds the registration of `handleA`. -/
theorem delete_keeps_watcher_counterexample :
    handleA ∈ watchedStore.objects_ ∧ handleA.GetSessionId = "A" ∧
    StdMap.find watchedStore.watchers_ handleA.addr = some ⟨7, "A"⟩ ∧
    (watchedStore.DeleteObject sampleCodes "A").ret = SUCCESS ∧
    StdMap.count (watchedStore.DeleteObject sampleCodes "A").store.watchers_ handleA.addr = 1 ∧
    StdMap.find (watchedStore.DeleteObject sampleCodes "A").store.watchers_ handleA.addr
      = some ⟨7, "A"⟩ := by
  decide

/-- Claim C3, amended. After `DeleteObject(s)` has returned SUCCESS, the registry holds
no handle with session id `s`, and the watcher table is exactly what it was before the
call: a registration present for a deleted handle is still present. -/
theorem delete_removes_handles_keeps_watchers (E : ErrorCodes) (hE : E.WF)
    (st : DistributedObjectStoreImpl) (s : String)
    (hdel : (st.DeleteObject E s).ret = SUCCESS) :
    (∀ o ∈ (st.DeleteObject E s).store.objects_, o.GetSessionId ≠ s) ∧
    (st.DeleteObject E s).store.watchers_ = st.watchers_ := by
  rw [DeleteObject_success E hE st s hdel]
  exact ⟨fun o ho => ((DistributedObjectStoreImpl.mem_removeLoop _ s o).mp ho).2, rfl⟩

/-- Witness for claim C3 as amended, on the store with the watched handle of session
"A". -/
theorem delete_removes_handles_keeps_watchers_witness :
    (watchedStore.DeleteObject sampleCodes "A").ret = SUCCESS ∧
    (∀ o ∈ (watchedStore.DeleteObject sampleCodes "A").store.objects_,
      o.GetSessionId ≠ "A") ∧
    (watchedStore.DeleteObject sampleCodes "A").store.watchers_ = watchedStore.watchers_ :=
  ⟨by decide,
    delete_removes_handles_keeps_watchers sampleCodes (by decide) watchedStore "A" (by decide)⟩

/-! ## The watcher table: `Watch`, `UnWatch` -/

namespace StdMap

variable {κ : Type} {ν : Type} [DecidableEq κ]

theorem find_insert_or_assign_self (m : List (κ × ν)) (k : κ) (v : ν) :
    find (insert_or_assign m k v) k = some v := by
  induction m with
  | nil => simp [insert_or_assign, find]
  | cons e rest ih =>
    unfold insert_or_assign
    by_cases he : e.1 = k
    · simp [he, find]
    · simp [he, find, ih]

theorem count_eq_zero_iff (m : List (κ × ν)) (k : κ) :
    count m k = 0 ↔ ∀ e ∈ m, e.1 ≠ k := by
  unfold count
  by_cases h : m.any (fun e => decide (e.1 = k)) = true
  · simp only [h, if_true]
    constructor
    · intro h0; exact absurd h0 (by decide)
    · intro hall
      obtain ⟨e, he, hk⟩ := List.any_eq_true.mp h
      exact absurd (of_decide_eq_true hk) (hall e he)
  · simp only [h]
    constructor
    · intro _ e he hk
      exact h (List.any_eq_true.mpr ⟨e, he, decide_eq_true hk⟩)
    · intro _; rfl

theorem count_ne_zero_of_find (m : List (κ × ν)) (k : κ) (v : ν) (h : find m k = some v) :
    count m k ≠ 0 := by
  intro h0
  rw [count_eq_zero_iff] at h0
  induction m with
  | nil => simp [find] at h
  | cons e rest ih =>
    unfold find at h
    have he : ¬ e.1 = k := h0 e (List.mem_cons_self _ _)
    simp only [he, if_false] at h
    exact ih h (fun x hx => h0 x (List.mem_cons_of_mem _ hx))

theorem count_erase_self (m : List (κ × ν)) (k : κ) : count (erase m k) k = 0 := by
  rw [count_eq_zero_iff]
  intro e he
  unfold erase at he
  exact of_decide_eq_true (List.mem_filter.mp he).2

end StdMap

theorem Watch_success (E : ErrorCodes) (hE : E.WF) (st : DistributedObjectStoreImpl)
    (h : DistributedObjectImpl) (w : Nat)
    (hw : (st.Watch E (some h) w).ret = SUCCESS) :
    ∃ fs, st.flatObjectStore_ = some fs ∧
      StdMap.count st.watchers_ h.addr = 0 ∧
      (fs.Watch E h.GetSessionId ⟨w, h.GetSessionId⟩).ret = SUCCESS ∧
      (st.Watch E (some h) w).store =
        { st with watchers_ :=
            StdMap.insert_or_assign st.watchers_ h.addr ⟨w, h.GetSessionId⟩ } := by
  unfold DistributedObjectStoreImpl.Watch at hw ⊢
  cases hfs : st.flatObjectStore_ with
  | none =>
    simp only [hfs] at hw
    exact absurd hw (ErrorCodes.WF.null_objectstore_ne E hE)
  | some fs =>
    simp only [hfs] at hw ⊢
    by_cases hc : StdMap.count st.watchers_ h.addr ≠ 0
    · rw [if_pos hc] at hw
      have hpos := hE.1.1
      have hw0 : E.ERR_EXIST = 0 := hw
      omega
    · rw [if_neg hc] at hw ⊢
      by_cases hr : (fs.Watch E h.GetSessionId ⟨w, h.GetSessionId⟩).ret ≠ SUCCESS
      · rw [if_pos hr] at hw
        exact absurd hw hr
      · rw [if_neg hr]
        exact ⟨fs, rfl, not_not.mp hc, not_not.mp hr, rfl⟩

/-- Claim C4. When `Watch(h, w1)` has returned SUCCESS for a non-null handle `h`, a
second `Watch(h, w2)` returns `ERR_EXIST`, makes no call to the storage engine, and leaves
the watcher table unchanged: `h` is still mapped to the adapter created for `w1`. -/
theorem second_watch_rejected (E : ErrorCodes) (hE : E.WF) (st : DistributedObjectStoreImpl)
    (h : DistributedObjectImpl) (w1 w2 : Nat)
    (hfirst : (st.Watch E (some h) w1).ret = SUCCESS) :
    ((st.Watch E (some h) w1).store.Watch E (some h) w2).ret = E.ERR_EXIST ∧
    ((st.Watch E (some h) w1).store.Watch E (some h) w2).calls = [] ∧
    ((st.Watch E (some h) w1).store.Watch E (some h) w2).store.watchers_
      = (st.Watch E (some h) w1).store.watchers_ ∧
    StdMap.find ((st.Watch E (some h) w1).store.Watch E (some h) w2).store.watchers_ h.addr
      = some ⟨w1, h.GetSessionId⟩ := by
  obtain ⟨fs, hfs, _, _, hst⟩ := Watch_success E hE st h w1 hfirst
  rw [hst]
  have hfind := StdMap.find_insert_or_assign_self st.watchers_ h.addr
    (⟨w1, h.GetSessionId⟩ : WatcherProxy)
  have hcount := StdMap.count_ne_zero_of_find _ _ _ hfind
  unfold DistributedObjectStoreImpl.Watch
  simp only [hfs]
  rw [if_pos hcount]
  exact ⟨rfl, rfl, rfl, hfind⟩

/-- Witness for claim C4: on a fresh store holding `handleA`, `Watch(handleA, 7)`
succeeds and `Watch(handleA, 8)` is rejected, the table still mapping the handle to the
adapter of watcher 7. -/
theorem second_watch_rejected_witness :
    (freshStore.Watch sampleCodes (some handleA) 7).ret = SUCCESS ∧
    ((freshStore.Watch sampleCodes (some handleA) 7).store.Watch sampleCodes
      (some handleA) 8).ret = sampleCodes.ERR_EXIST ∧
    StdMap.find ((freshStore.Watch sampleCodes (some handleA) 7).store.Watch sampleCodes
      (some handleA) 8).store.watchers_ handleA.addr = some ⟨7, "A"⟩ :=
  ⟨by decide,
    (second_watch_rejected sampleCodes (by decide) freshStore handleA 7 8 (by decide)).1,
    (second_watch_rejected sampleCodes (by decide) freshStore handleA 7 8 (by decide)).2.2.2⟩

/-- Claim C5. With a non-null store whose storage engine is opened and accepts the
unregistration and the registration for the session of a non-null handle `h`,
`UnWatch(h)` returns SUCCESS, the `Watch(h, w)` that follows returns SUCCESS, and `h` is
then mapped to the adapter created for `w`, whatever the watcher table held before the
`UnWatch`. -/
theorem unwatch_then_watch_succeeds (E : ErrorCodes) (st : DistributedObjectStoreImpl)
    (fs : FlatObjectStore) (h : DistributedObjectImpl) (w : Nat)
    (hfs : st.flatObjectStore_ = some fs)
    (hopen : fs.storageEngine_.isOpened_ = true)
    (hun : fs.storageEngine_.UnRegisterObserver h.GetSessionId = SUCCESS)
    (hreg : fs.storageEngine_.RegisterObserver h.GetSessionId ⟨w, h.GetSessionId⟩
      = SUCCESS) :
    (st.UnWatch E (some h)).ret = SUCCESS ∧
    ((st.UnWatch E (some h)).store.Watch E (some h) w).ret = SUCCESS ∧
    StdMap.find ((st.UnWatch E (some h)).store.Watch E (some h) w).store.watchers_ h.addr
      = some ⟨w, h.GetSessionId⟩ := by
  have hun' : (fs.UnWatch E h.GetSessionId).ret = SUCCESS := by
    unfold FlatObjectStore.UnWatch
    simp [hopen, hun]
  have hreg' : (fs.Watch E h.GetSessionId ⟨w, h.GetSessionId⟩).ret = SUCCESS := by
    unfold FlatObjectStore.Watch
    simp [hopen, hreg]
  have hstore : (st.UnWatch E (some h)).store =
      { st with watchers_ := StdMap.erase st.watchers_ h.addr } := by
    unfold DistributedObjectStoreImpl.UnWatch
    simp [hfs, hun']
  have hret : (st.UnWatch E (some h)).ret = SUCCESS := by
    unfold DistributedObjectStoreImpl.UnWatch
    simp [hfs, hun']
  refine ⟨hret, ?_⟩
  rw [hstore]
  unfold DistributedObjectStoreImpl.Watch
  simp only [hfs]
  have hc : ¬ StdMap.count (StdMap.erase st.watchers_ h.addr) h.addr ≠ 0 :=
    not_not.mpr (StdMap.count_erase_self _ _)
  rw [if_neg hc]
  have hr : ¬ (fs.Watch E h.GetSessionId ⟨w, h.GetSessionId⟩).ret ≠ SUCCESS :=
    not_not.mpr hreg'
  rw [if_neg hr]
  exact ⟨rfl, StdMap.find_insert_or_assign_self _ _ _⟩

/-- Witness for claim C5: on the store where `handleA` is watched by watcher 7,
`UnWatch(handleA)` then `Watch(handleA, 8)` succeeds and maps the handle to the adapter
of watcher 8. -/
theorem unwatch_then_watch_succeeds_witness :
    (watchedStore.UnWatch sampleCodes (some handleA)).ret = SUCCESS ∧
    ((watchedStore.UnWatch sampleCodes (some handleA)).store.Watch sampleCodes
      (some handleA) 8).ret = SUCCESS ∧
    StdMap.find ((watchedStore.UnWatch sampleCodes (some handleA)).store.Watch sampleCodes
      (some handleA) 8).store.watchers_ handleA.addr = some ⟨8, "A"⟩ :=
  unwatch_then_watch_succeeds sampleCodes watchedStore
    { bundleName_ := "bundle", storageEngine_ := acceptingEngine } handleA 8
    rfl rfl rfl rfl

theorem ErrorCodes.WF.db_not_init_ne (E : ErrorCodes) (hE : E.WF) :
    E.ERR_DB_NOT_INIT ≠ SUCCESS := by
  have h := hE.2.1.1
  unfold SUCCESS; omega

/-- Claim C6. For a non-null handle `h` without a registration and a non-null store:
(1) when the engine's observer registration answers a status `e` other than SUCCESS,
`Watch(h, w)` returns `e` and the store, its watcher table included, is what it was;
(2) when the engine is not opened, `Watch(h, w)` returns `ERR_DB_NOT_INIT`, asks the
engine nothing and leaves the store as it was;
(3) a registration for `h` is present after the call only if the engine was opened and
its observer registration answered SUCCESS. -/
theorem watch_records_only_on_engine_success (E : ErrorCodes) (hE : E.WF)
    (st : DistributedObjectStoreImpl) (fs : FlatObjectStore) (h : DistributedObjectImpl)
    (w : Nat) (hfs : st.flatObjectStore_ = some fs)
    (hnew : StdMap.count st.watchers_ h.addr = 0) :
    (∀ e, fs.storageEngine_.isOpened_ = true →
        fs.storageEngine_.RegisterObserver h.GetSessionId ⟨w, h.GetSessionId⟩ = e →
        e ≠ SUCCESS →
        (st.Watch E (some h) w).ret = e ∧
        (st.Watch E (some h) w).store.watchers_ = st.watchers_ ∧
        (st.Watch E (some h) w).store.objects_ = st.objects_) ∧
    (fs.storageEngine_.isOpened_ = false →
        (st.Watch E (some h) w).ret = E.ERR_DB_NOT_INIT ∧
        (st.Watch E (some h) w).calls = [] ∧
        (st.Watch E (some h) w).store.watchers_ = st.watchers_) ∧
    (StdMap.count (st.Watch E (some h) w).store.watchers_ h.addr ≠ 0 →
        fs.storageEngine_.isOpened_ = true ∧
        fs.storageEngine_.RegisterObserver h.GetSessionId ⟨w, h.GetSessionId⟩ = SUCCESS) := by
  have hc : ¬ StdMap.count st.watchers_ h.addr ≠ 0 := not_not.mpr hnew
  have hni := ErrorCodes.WF.db_not_init_ne E hE
  unfold DistributedObjectStoreImpl.Watch
  simp only [hfs]
  rw [if_neg hc]
  unfold FlatObjectStore.Watch
  cases hop : fs.storageEngine_.isOpened_ with
  | false =>
    simp only [Bool.not_false, if_true]
    rw [if_pos hni]
    exact ⟨fun e ho => Bool.noConfusion ho, fun _ => ⟨rfl, rfl, rfl⟩,
      fun hcnt => absurd hnew hcnt⟩
  | true =>
    simp only [Bool.not_true, Bool.false_eq_true, if_false]
    refine ⟨?_, fun ho => Bool.noConfusion ho, ?_⟩
    · intro e _ he hne
      rw [he, if_pos hne]
      exact ⟨rfl, rfl, rfl⟩
    · intro hcnt
      by_cases hr : fs.storageEngine_.RegisterObserver h.GetSessionId ⟨w, h.GetSessionId⟩
          ≠ SUCCESS
      · rw [if_pos hr] at hcnt
        exact absurd hnew hcnt
      · exact ⟨trivial, not_not.mp hr⟩

/-- Witness for claim C6: over an engine refusing the registration with status 1662,
`Watch(handleA, 7)` returns 1662 and the watcher table keeps its single other entry. -/
theorem watch_records_only_on_engine_success_witness :
    (refusingStore.Watch sampleCodes (some handleA) 7).ret = 1662 ∧
    (refusingStore.Watch sampleCodes (some handleA) 7).store.watchers_
      = refusingStore.watchers_ ∧
    (refusingStore.Watch sampleCodes (some handleA) 7).store.objects_
      = refusingStore.objects_ :=
  (watch_records_only_on_engine_success sampleCodes (by decide) refusingStore
    { bundleName_ := "bundle", storageEngine_ := refusingEngine } handleA 7 rfl
    (by decide)).1 1662 rfl rfl (by decide)

/-! ## The cache bridge: `CacheManager` -/

theorem toUInt32_eq_zero_iff (x : Int) (hx : isInt32 x) : toUInt32 x = 0 ↔ x = 0 := by
  unfold isInt32 at hx
  unfold toUInt32
  omega

theorem toUInt32_toInt32 (c : Nat) (hc : isErrorCode c) : toUInt32 (toInt32 c) = c := by
  unfold isErrorCode at hc
  unfold toUInt32 toInt32
  split <;> omega

theorem StdMap.find_mem {κ : Type} {ν : Type} [DecidableEq κ] (m : List (κ × ν)) (k : κ)
    (v : ν) (h : StdMap.find m k = some v) : (k, v) ∈ m := by
  induction m with
  | nil => simp [StdMap.find] at h
  | cons e rest ih =>
    unfold StdMap.find at h
    by_cases he : e.1 = k
    · simp only [he, if_true, Option.some.injEq] at h
      have : e = (k, v) := Prod.ext he h
      rw [this]; exact List.mem_cons_self _ _
    · simp only [he, if_false] at h
      exact List.mem_cons_of_mem _ (ih h)

/-- Claim C7. For an accepted remote save request (the proxy is available and
`ObjectStoreSave` answered SUCCESS) whose callback receives the per-device result map `m`
of `int32_t` values: `Save` returns, with SUCCESS when `m` has an entry for the device id
`d` whose value is the success code, and with `ERR_DB_GET_FAIL` (which is not SUCCESS) in
every other case, in particular when `d` has no entry in `m`. -/
theorem save_result_for_device (E : ErrorCodes) (hE : E.WF) (p : IObjectService)
    (m : List (String × Int)) (bundleName sessionId d : String) (objectData : ObjectData)
    (hacc : toUInt32 (p.ObjectStoreSave bundleName sessionId d objectData) = SUCCESS)
    (hm : ∀ e ∈ m, isInt32 e.2) :
    (StdMap.find m d = some 0 →
      (CacheManager.Save E (some p) (some m) bundleName sessionId d objectData).ret
        = some SUCCESS) ∧
    (StdMap.find m d ≠ some 0 →
      (CacheManager.Save E (some p) (some m) bundleName sessionId d objectData).ret
        = some E.ERR_DB_GET_FAIL) ∧
    (StdMap.find m d = none →
      (CacheManager.Save E (some p) (some m) bundleName sessionId d objectData).ret
        = some E.ERR_DB_GET_FAIL) ∧
    E.ERR_DB_GET_FAIL ≠ SUCCESS := by
  have hfail : E.ERR_DB_GET_FAIL ≠ SUCCESS := by
    have h := hE.2.2.1.1
    unfold SUCCESS; omega
  have hacc' : ¬ toUInt32 (p.ObjectStoreSave bundleName sessionId d objectData) ≠ SUCCESS :=
    not_not.mpr hacc
  have hret : (CacheManager.Save E (some p) (some m) bundleName sessionId d objectData).ret
      = some (if toUInt32 (CacheManager.saveCallback E d m) = SUCCESS
          then toUInt32 (CacheManager.saveCallback E d m) else E.ERR_DB_GET_FAIL) := by
    unfold CacheManager.Save CacheManager.SaveObject
    simp only []
    rw [if_neg hacc']
  have hother : StdMap.find m d ≠ some 0 →
      (CacheManager.Save E (some p) (some m) bundleName sessionId d objectData).ret
        = some E.ERR_DB_GET_FAIL := by
    intro hne
    rw [hret]
    have hcb : toUInt32 (CacheManager.saveCallback E d m) ≠ SUCCESS := by
      unfold CacheManager.saveCallback
      cases hf : StdMap.find m d with
      | none =>
        simp only
        rw [toUInt32_toInt32 _ hE.2.2.1]
        exact hfail
      | some v =>
        simp only
        intro h0
        have hv : v = 0 := (toUInt32_eq_zero_iff v (hm _ (StdMap.find_mem m d v hf))).mp h0
        exact hne (by rw [hf, hv])
    rw [if_neg hcb]
  refine ⟨?_, hother, ?_, hfail⟩
  · intro hfind
    rw [hret]
    have hcb : toUInt32 (CacheManager.saveCallback E d m) = SUCCESS := by
      unfold CacheManager.saveCallback
      rw [hfind]
      rfl
    rw [if_pos hcb, hcb]
  · intro hnone
    exact hother (by rw [hnone]; exact fun h => Option.noConfusion h)

/-- Witness for claim C7: the callback's map has entries for devices "d1" and "d2" only;
`Save` for the absent device "d3" returns `ERR_DB_GET_FAIL`. -/
theorem save_result_for_device_witness :
    (CacheManager.Save sampleCodes (some acceptingService) (some [("d1", 0), ("d2", 5)])
      "bundle" "A" "d3" []).ret = some sampleCodes.ERR_DB_GET_FAIL :=
  (save_result_for_device sampleCodes (by decide) acceptingService [("d1", 0), ("d2", 5)]
    "bundle" "A" "d3" [] (by decide) (by decide)).2.2.1 (by decide)

/-- Claim C8. When the remote proxy is unavailable, `Save`, `RevokeSave` and
`ResumeObject` each return `ERR_NULL_PTR`, whatever the remote side would have delivered,
and their list of effects is empty: no remote request is issued and the wait on the
condition variable is not entered. -/
theorem null_proxy_fails_without_blocking (E : ErrorCodes) (hE : E.WF)
    (deliveredSave : Option (List (String × Int))) (deliveredRevoke : Option Int)
    (bundleName sessionId deviceId : String) (objectData : ObjectData) :
    ((CacheManager.Save E none deliveredSave bundleName sessionId deviceId objectData).ret
        = some E.ERR_NULL_PTR ∧
      (CacheManager.Save E none deliveredSave bundleName sessionId deviceId objectData).calls
        = []) ∧
    ((CacheManager.RevokeSave E none deliveredRevoke bundleName sessionId).ret
        = some E.ERR_NULL_PTR ∧
      (CacheManager.RevokeSave E none deliveredRevoke bundleName sessionId).calls = []) ∧
    ((CacheManager.ResumeObject E none bundleName sessionId).ret = toInt32 E.ERR_NULL_PTR ∧
      toUInt32 (CacheManager.ResumeObject E none bundleName sessionId).ret = E.ERR_NULL_PTR ∧
      (CacheManager.ResumeObject E none bundleName sessionId).calls = []) := by
  have hconv := toUInt32_toInt32 E.ERR_NULL_PTR hE.2.2.2.2.2.2.2
  have hne : toUInt32 (toInt32 E.ERR_NULL_PTR) ≠ SUCCESS := by
    rw [hconv]
    have h := hE.2.2.2.2.2.2.2.1
    unfold SUCCESS; omega
  refine ⟨?_, ?_, ?_⟩
  · unfold CacheManager.Save CacheManager.SaveObject
    simp only []
    rw [if_pos hne, hconv]
    exact ⟨rfl, rfl⟩
  · unfold CacheManager.RevokeSave CacheManager.RevokeSaveObject
    simp only []
    rw [if_pos hne, hconv]
    exact ⟨rfl, rfl⟩
  · unfold CacheManager.ResumeObject
    exact ⟨rfl, hconv, rfl⟩

/-- Witness for claim C8 with the sample error codes: `Save` with no proxy returns
`ERR_NULL_PTR` and has no effect, even when no callback would ever be delivered. -/
theorem null_proxy_fails_without_blocking_witness :
    (CacheManager.Save sampleCodes none none "bundle" "A" "d1" []).ret
        = some sampleCodes.ERR_NULL_PTR ∧
    (CacheManager.Save sampleCodes none none "bundle" "A" "d1" []).calls = [] :=
  (null_proxy_fails_without_blocking sampleCodes (by decide) none none
    "bundle" "A" "d1" []).1

/-! ## The restore loop: `TriggerRestore` -/

namespace StdMap

variable {κ : Type} {ν : Type} [DecidableEq κ]

theorem mem_insert_or_assign (m : List (κ × ν)) (k : κ) (v : ν) (e : κ × ν)
    (h : e ∈ insert_or_assign m k v) : e = (k, v) ∨ e ∈ m := by
  induction m with
  | nil =>
    simp only [insert_or_assign, List.mem_singleton] at h
    exact Or.inl h
  | cons a rest ih =>
    unfold insert_or_assign at h
    by_cases ha : a.1 = k
    · simp only [ha, if_true, List.mem_cons] at h
      rcases h with h | h
      · exact Or.inl h
      · exact Or.inr (List.mem_cons_of_mem _ h)
    · simp only [ha, if_false, List.mem_cons] at h
      rcases h with h | h
      · exact Or.inr (h ▸ List.mem_cons_self _ _)
      · rcases ih h with h1 | h1
        · exact Or.inl h1
        · exact Or.inr (List.mem_cons_of_mem _ h1)

theorem mem_insert_or_assign_of_nodup (m : List (κ × ν)) (k : κ) (v : ν) (e : κ × ν)
    (hnd : (m.map Prod.fst).Nodup) (h : e ∈ insert_or_assign m k v) :
    e = (k, v) ∨ (e ∈ m ∧ e.1 ≠ k) := by
  induction m with
  | nil =>
    simp only [insert_or_assign, List.mem_singleton] at h
    exact Or.inl h
  | cons a rest ih =>
    simp only [List.map_cons, List.nodup_cons] at hnd
    unfold insert_or_assign at h
    by_cases ha : a.1 = k
    · simp only [ha, if_true, List.mem_cons] at h
      rcases h with h | h
      · exact Or.inl h
      · refine Or.inr ⟨List.mem_cons_of_mem _ h, fun hk => hnd.1 ?_⟩
        rw [ha, ← hk]
        exact List.mem_map_of_mem Prod.fst h
    · simp only [ha, if_false, List.mem_cons] at h
      rcases h with h | h
      · subst h
        exact Or.inr ⟨List.mem_cons_self _ _, ha⟩
      · rcases ih hnd.2 h with h1 | ⟨h1, h2⟩
        · exact Or.inl h1
        · exact Or.inr ⟨List.mem_cons_of_mem _ h1, h2⟩

theorem key_mem_insert_or_assign (m : List (κ × ν)) (k : κ) (v : ν) (k' : κ) :
    k' ∈ (insert_or_assign m k v).map Prod.fst ↔ k' = k ∨ k' ∈ m.map Prod.fst := by
  induction m with
  | nil => simp [insert_or_assign]
  | cons a rest ih =>
    unfold insert_or_assign
    by_cases ha : a.1 = k
    · simp only [ha, if_true, List.map_cons, List.mem_cons]
      tauto
    · simp only [ha, if_false, List.map_cons, List.mem_cons, ih]
      tauto

theorem nodup_insert_or_assign (m : List (κ × ν)) (k : κ) (v : ν)
    (hnd : (m.map Prod.fst).Nodup) : ((insert_or_assign m k v).map Prod.fst).Nodup := by
  induction m with
  | nil => simp [insert_or_assign]
  | cons a rest ih =>
    simp only [List.map_cons, List.nodup_cons] at hnd
    unfold insert_or_assign
    by_cases ha : a.1 = k
    · simp only [ha, if_true, List.map_cons, List.nodup_cons]
      rw [← ha]; exact hnd
    · simp only [ha, if_false, List.map_cons, List.nodup_cons]
      refine ⟨fun hmem => ?_, ih hnd.2⟩
      rcases (key_mem_insert_or_assign rest k v a.1).mp hmem with h | h
      · exact ha h
      · exact hnd.1 h

theorem insert_or_assign_twice (m : List (κ × ν)) (k : κ) (v v' : ν) :
    insert_or_assign (insert_or_assign m k v) k v' = insert_or_assign m k v' := by
  induction m with
  | nil => simp [insert_or_assign]
  | cons a rest ih =>
    by_cases ha : a.1 = k
    · simp [insert_or_assign, ha]
    · simp [insert_or_assign, ha, ih]

theorem find_eq_none_iff (m : List (κ × ν)) (k : κ) :
    find m k = none ↔ k ∉ m.map Prod.fst := by
  induction m with
  | nil => simp [find]
  | cons a rest ih =>
    unfold find
    by_cases ha : a.1 = k
    · simp [ha]
    · simp only [ha, if_false, ih, List.map_cons, List.mem_cons]
      constructor
      · intro h1 h2
        rcases h2 with h2 | h2
        · exact ha h2.symm
        · exact h1 h2
      · intro h1 h2
        exact h1 (Or.inr h2)

theorem find_of_mem_of_nodup (m : List (κ × ν)) (k : κ) (v : ν)
    (hnd : (m.map Prod.fst).Nodup) (h : (k, v) ∈ m) : find m k = some v := by
  induction m with
  | nil => cases h
  | cons a rest ih =>
    simp only [List.map_cons, List.nodup_cons] at hnd
    unfold find
    rcases List.mem_cons.mp h with h | h
    · subst h; simp
    · have ha : ¬ a.1 = k := fun hk => hnd.1 (hk ▸ List.mem_map_of_mem Prod.fst h)
      simp only [ha, if_false]
      exact ih hnd.2 h

theorem mem_insert_or_assign_self (m : List (κ × ν)) (k : κ) (v : ν) :
    (k, v) ∈ insert_or_assign m k v :=
  find_mem _ _ _ (find_insert_or_assign_self m k v)

end StdMap

namespace TriggerRestore

theorem syncItem_single (E : ErrorCodes) (hE : E.WF) (env : RoundEnv) (i : Nat)
    (rs : RestoreState) (item : DistributedObjectImpl)
    (hs : (env.flatObjectStore_.SyncAllData E env.devices item.GetSessionId).ret
      = E.ERR_SINGLE_DEVICE) :
    ((StdMap.find rs.syncStatus item.GetSessionId = some SyncStatus.SYNC_SUCCESS ∨
        StdMap.find rs.syncStatus item.GetSessionId = some SyncStatus.SYNCING) ∧
      (syncItem E env i rs item).syncStatus = rs.syncStatus ∧
      (syncItem E env i rs item).requests = rs.requests) ∨
    (StdMap.find rs.syncStatus item.GetSessionId ≠ some SyncStatus.SYNC_SUCCESS ∧
      (syncItem E env i rs item).syncStatus
        = StdMap.insert_or_assign rs.syncStatus item.GetSessionId SyncStatus.SYNC_SUCCESS ∧
      (syncItem E env i rs item).requests = rs.requests ++ [(i, item.GetSessionId)]) := by
  have hne : ¬ E.ERR_SINGLE_DEVICE = SUCCESS := by
    have h := hE.2.2.2.2.2.2.1.1
    unfold SUCCESS; omega
  unfold syncItem StdMap.subscript
  cases hf : StdMap.find rs.syncStatus item.GetSessionId with
  | none =>
    right
    simp [hs, hne, StdMap.insert_or_assign_twice]
  | some v =>
    cases v with
    | SYNC_START => right; simp [hs, hne]
    | SYNCING => left; simp
    | SYNC_SUCCESS => left; simp
    | SYNC_FAIL => right; simp [hs, hne]

theorem onCompleteResult_ok (devices : List (String × DBStatus))
    (h : ∀ device ∈ devices, device.2 = DistributedDB.OK) :
    onCompleteResult devices = SyncStatus.SYNC_SUCCESS := by
  unfold onCompleteResult
  induction devices with
  | nil => rfl
  | cons d rest ih =>
    have hd : ¬ d.2 ≠ DistributedDB.OK := not_not.mpr (h d (List.mem_cons_self _ _))
    simp only [List.foldl_cons, hd, if_false]
    exact ih (fun x hx => h x (List.mem_cons_of_mem _ hx))

theorem deliver_requests (rs : RestoreState)
    (completions : List (String × List (String × DBStatus))) :
    (deliver rs completions).requests = rs.requests := by
  unfold deliver
  induction completions generalizing rs with
  | nil => rfl
  | cons c rest ih => simp only [List.foldl_cons]; rw [ih]

theorem AllSuccess.insert (m : List (String × SyncStatus)) (k : String) (h : AllSuccess m) :
    AllSuccess (StdMap.insert_or_assign m k SyncStatus.SYNC_SUCCESS) := by
  intro e he
  rcases StdMap.mem_insert_or_assign m k _ e he with h1 | h1
  · rw [h1]
  · exact h e h1

theorem deliver_allSuccess (rs : RestoreState)
    (completions : List (String × List (String × DBStatus)))
    (hok : ∀ c ∈ completions, ∀ device ∈ c.2, device.2 = DistributedDB.OK)
    (h : AllSuccess rs.syncStatus) : AllSuccess (deliver rs completions).syncStatus := by
  unfold deliver
  induction completions generalizing rs with
  | nil => exact h
  | cons c rest ih =>
    simp only [List.foldl_cons]
    apply ih
    · exact fun x hx => hok x (List.mem_cons_of_mem _ hx)
    · show AllSuccess (onComplete rs.syncStatus c.1 c.2)
      unfold onComplete
      rw [onCompleteResult_ok c.2 (hok c (List.mem_cons_self _ _))]
      exact AllSuccess.insert _ _ h

theorem deliver_keys (rs : RestoreState)
    (completions : List (String × List (String × DBStatus))) (k : String)
    (h : k ∈ rs.syncStatus.map Prod.fst) :
    k ∈ (deliver rs completions).syncStatus.map Prod.fst := by
  unfold deliver
  induction completions generalizing rs with
  | nil => exact h
  | cons c rest ih =>
    simp only [List.foldl_cons]
    apply ih
    show k ∈ (onComplete rs.syncStatus c.1 c.2).map Prod.fst
    unfold onComplete
    exact (StdMap.key_mem_insert_or_assign _ _ _ _).mpr (Or.inr h)

theorem isFinished_iff (m : List (String × SyncStatus)) :
    isFinished m = true ↔ AllSuccess m := by
  induction m with
  | nil => simp [isFinished, AllSuccess]
  | cons a rest ih =>
    unfold isFinished
    by_cases ha : a.2 = SyncStatus.SYNC_SUCCESS
    · simp only [ha, ne_eq, not_true_eq_false, if_false, ih]
      constructor
      · intro h e he
        rcases List.mem_cons.mp he with h1 | h1
        · rw [h1]; exact ha
        · exact h e h1
      · intro h e he
        exact h e (List.mem_cons_of_mem _ he)
    · simp only [ne_eq, ha, not_false_eq_true, if_true]
      constructor
      · intro h; cases h
      · intro h; exact absurd (h a (List.mem_cons_self _ _)) ha

theorem syncItem_settled (E : ErrorCodes) (hE : E.WF) (env : RoundEnv) (i : Nat)
    (sessions : List String) (rs : RestoreState) (item : DistributedObjectImpl)
    (hs : (env.flatObjectStore_.SyncAllData E env.devices item.GetSessionId).ret
      = E.ERR_SINGLE_DEVICE)
    (h : Settled sessions rs) : Settled sessions (syncItem E env i rs item) := by
  obtain ⟨hall, hkeys, hreq⟩ := h
  rcases syncItem_single E hE env i rs item hs with ⟨_, hm, hr⟩ | ⟨hne, hm, hr⟩
  · unfold Settled
    rw [hm, hr]
    exact ⟨hall, hkeys, hreq⟩
  · have hnotin : item.GetSessionId ∉ rs.syncStatus.map Prod.fst := by
      rw [← StdMap.find_eq_none_iff]
      cases hf : StdMap.find rs.syncStatus item.GetSessionId with
      | none => rfl
      | some v =>
        have hv := hall _ (StdMap.find_mem _ _ _ hf)
        simp only at hv
        rw [hf, hv] at hne
        exact absurd rfl hne
    unfold Settled
    rw [hm, hr]
    refine ⟨AllSuccess.insert _ _ hall, ?_, ?_⟩
    · intro k hk
      exact (StdMap.key_mem_insert_or_assign _ _ _ _).mpr (Or.inr (hkeys k hk))
    · intro r hr' hmem
      rcases List.mem_append.mp hr' with h1 | h1
      · exact hreq r h1 hmem
      · rw [List.mem_singleton] at h1
        rw [h1] at hmem
        exact absurd (hkeys _ hmem) hnotin

theorem foldl_syncItem_settled (E : ErrorCodes) (hE : E.WF) (env : RoundEnv) (i : Nat)
    (sessions : List String) (objects : List DistributedObjectImpl)
    (hs : ∀ s, (env.flatObjectStore_.SyncAllData E env.devices s).ret = E.ERR_SINGLE_DEVICE) :
    ∀ rs, Settled sessions rs →
      Settled sessions (objects.foldl (syncItem E env i) rs) := by
  induction objects with
  | nil => intro rs h; exact h
  | cons a rest ih =>
    intro rs h
    simp only [List.foldl_cons]
    exact ih _ (syncItem_settled E hE env i sessions rs a (hs _) h)

theorem deliver_settled (sessions : List String) (rs : RestoreState)
    (completions : List (String × List (String × DBStatus)))
    (hok : ∀ c ∈ completions, ∀ device ∈ c.2, device.2 = DistributedDB.OK)
    (h : Settled sessions rs) : Settled sessions (deliver rs completions) := by
  obtain ⟨hall, hkeys, hreq⟩ := h
  refine ⟨deliver_allSuccess rs completions hok hall, ?_, ?_⟩
  · intro k hk
    exact deliver_keys rs completions k (hkeys k hk)
  · rw [deliver_requests]
    exact hreq

theorem round_tail_settled (env : Nat → RoundEnv) (hok : NoFailureReported env) (i : Nat)
    (sessions : List String) (rs1 : RestoreState) (h : Settled sessions rs1) :
    Settled sessions
      (deliver
        (if !isFinished (deliver rs1 (env i).completions).syncStatus then
          { deliver rs1 (env i).completions with
            sleeps := (deliver rs1 (env i).completions).sleeps + 1 }
        else deliver rs1 (env i).completions)
        (env i).lateCompletions) := by
  have h2 : Settled sessions (deliver rs1 (env i).completions) :=
    deliver_settled sessions rs1 _
      (fun c hc => hok i c (List.mem_append_left _ hc)) h
  apply deliver_settled sessions _ _ (fun c hc => hok i c (List.mem_append_right _ hc))
  split
  · exact h2
  · exact h2

theorem round_settled (E : ErrorCodes) (hE : E.WF) (env : Nat → RoundEnv)
    (hsingle : SingleDevice E env) (hok : NoFailureReported env) (i : Nat)
    (sessions : List String) (rs : RestoreState) (h : Settled sessions rs) :
    Settled sessions (round E env i rs) := by
  unfold round
  apply round_tail_settled env hok i sessions
  apply foldl_syncItem_settled E hE (env i) i sessions _ (hsingle i)
  exact h

theorem syncItem_pending (E : ErrorCodes) (hE : E.WF) (env : RoundEnv) (i : Nat)
    (sessions : List String) (reached : String → Prop) (rs : RestoreState)
    (item : DistributedObjectImpl)
    (hs : (env.flatObjectStore_.SyncAllData E env.devices item.GetSessionId).ret
      = E.ERR_SINGLE_DEVICE)
    (h : Pending sessions reached rs.syncStatus) :
    Pending sessions (fun k => reached k ∨ k = item.GetSessionId)
      (syncItem E env i rs item).syncStatus := by
  obtain ⟨hnd, hent⟩ := h
  rcases syncItem_single E hE env i rs item hs with ⟨hfind, hm, _⟩ | ⟨_, hm, _⟩
  · rw [hm]
    refine ⟨hnd, fun e he => ?_⟩
    rcases hent e he with h1 | ⟨h1, h2, h3⟩
    · exact Or.inl h1
    · refine Or.inr ⟨h1, fun hr => ?_, h3⟩
      rcases hr with hr | hr
      · exact h2 hr
      · have hf := StdMap.find_of_mem_of_nodup rs.syncStatus e.1 e.2 hnd he
        rw [hr, h1] at hf
        rcases hfind with hfind | hfind
        · rw [hfind] at hf; cases hf
        · rw [hfind] at hf; cases hf
  · rw [hm]
    refine ⟨StdMap.nodup_insert_or_assign _ _ _ hnd, fun e he => ?_⟩
    rcases StdMap.mem_insert_or_assign_of_nodup _ _ _ e hnd he with h1 | ⟨h1, hk⟩
    · left; rw [h1]
    · rcases hent e h1 with h2 | ⟨h2, h3, h4⟩
      · exact Or.inl h2
      · refine Or.inr ⟨h2, fun hr => ?_, h4⟩
        rcases hr with hr | hr
        · exact h3 hr
        · exact hk hr

theorem Pending.weaken (sessions : List String) (reached reached' : String → Prop)
    (m : List (String × SyncStatus)) (himp : ∀ k, reached' k → reached k)
    (h : Pending sessions reached m) : Pending sessions reached' m := by
  refine ⟨h.1, fun e he => ?_⟩
  rcases h.2 e he with h1 | ⟨h1, h2, h3⟩
  · exact Or.inl h1
  · exact Or.inr ⟨h1, fun hr => h2 (himp _ hr), h3⟩

theorem foldl_syncItem_pending (E : ErrorCodes) (hE : E.WF) (env : RoundEnv) (i : Nat)
    (sessions : List String) (objects : List DistributedObjectImpl)
    (hs : ∀ s, (env.flatObjectStore_.SyncAllData E env.devices s).ret = E.ERR_SINGLE_DEVICE) :
    ∀ (reached : String → Prop) (rs : RestoreState),
      Pending sessions reached rs.syncStatus →
      Pending sessions
        (fun k => reached k ∨ k ∈ objects.map DistributedObjectImpl.GetSessionId)
        (objects.foldl (syncItem E env i) rs).syncStatus := by
  induction objects with
  | nil =>
    intro reached rs h
    exact Pending.weaken sessions reached _ _
      (fun k hk => hk.elim id (fun hmem => by cases hmem)) h
  | cons a rest ih =>
    intro reached rs h
    simp only [List.foldl_cons]
    have h1 := ih _ _ (syncItem_pending E hE env i sessions reached rs a (hs _) h)
    refine Pending.weaken sessions _ _ _ (fun k hk => ?_) h1
    rcases hk with hk | hk
    · exact Or.inl (Or.inl hk)
    · rcases List.mem_cons.mp hk with hk | hk
      · exact Or.inl (Or.inr hk)
      · exact Or.inr hk

theorem syncItem_keys (E : ErrorCodes) (env : RoundEnv) (i : Nat) (rs : RestoreState)
    (item : DistributedObjectImpl) (k : String) (h : k ∈ rs.syncStatus.map Prod.fst) :
    k ∈ (syncItem E env i rs item).syncStatus.map Prod.fst := by
  have hsub : k ∈ (StdMap.subscript rs.syncStatus item.GetSessionId
      SyncStatus.SYNC_START).2.map Prod.fst := by
    unfold StdMap.subscript
    cases StdMap.find rs.syncStatus item.GetSessionId with
    | none => exact (StdMap.key_mem_insert_or_assign _ _ _ _).mpr (Or.inr h)
    | some v => exact h
  unfold syncItem
  simp only
  split
  · simp only
    split
    · exact (StdMap.key_mem_insert_or_assign _ _ _ _).mpr (Or.inr hsub)
    · split
      · exact (StdMap.key_mem_insert_or_assign _ _ _ _).mpr (Or.inr hsub)
      · exact hsub
  · exact hsub

theorem foldl_syncItem_keys (E : ErrorCodes) (env : RoundEnv) (i : Nat)
    (objects : List DistributedObjectImpl) (k : String) :
    ∀ rs : RestoreState, k ∈ rs.syncStatus.map Prod.fst →
      k ∈ (objects.foldl (syncItem E env i) rs).syncStatus.map Prod.fst := by
  induction objects with
  | nil => intro rs h; exact h
  | cons a rest ih =>
    intro rs h
    simp only [List.foldl_cons]
    exact ih _ (syncItem_keys E env i rs a k h)

theorem syncItem_requests (E : ErrorCodes) (env : RoundEnv) (i : Nat) (rs : RestoreState)
    (item : DistributedObjectImpl) (r : Nat × String)
    (h : r ∈ (syncItem E env i rs item).requests) : r ∈ rs.requests ∨ r.1 = i := by
  unfold syncItem at h
  simp only at h
  split at h
  · rcases List.mem_append.mp h with h1 | h1
    · exact Or.inl h1
    · rw [List.mem_singleton] at h1
      right; rw [h1]
  · exact Or.inl h

theorem foldl_syncItem_requests (E : ErrorCodes) (env : RoundEnv) (i : Nat)
    (objects : List DistributedObjectImpl) (r : Nat × String) :
    ∀ rs : RestoreState, r ∈ (objects.foldl (syncItem E env i) rs).requests →
      r ∈ rs.requests ∨ r.1 = i := by
  induction objects with
  | nil => intro rs h; exact Or.inl h
  | cons a rest ih =>
    intro rs h
    simp only [List.foldl_cons] at h
    rcases ih _ h with h1 | h1
    · exact syncItem_requests E env i rs a r h1
    · exact Or.inr h1

theorem initStatus_aux (sessions : List String) (objects : List DistributedObjectImpl)
    (hsub : ∀ o ∈ objects, o.GetSessionId ∈ sessions) :
    ∀ m : List (String × SyncStatus),
      (m.map Prod.fst).Nodup →
      (∀ e ∈ m, e.2 = SyncStatus.SYNC_START ∧ e.1 ∈ sessions) →
      ((objects.foldl
          (fun m item => StdMap.insert_or_assign m item.GetSessionId SyncStatus.SYNC_START)
          m).map Prod.fst).Nodup ∧
      (∀ e ∈ objects.foldl
          (fun m item => StdMap.insert_or_assign m item.GetSessionId SyncStatus.SYNC_START) m,
        e.2 = SyncStatus.SYNC_START ∧ e.1 ∈ sessions) ∧
      (∀ k, (k ∈ m.map Prod.fst ∨ k ∈ objects.map DistributedObjectImpl.GetSessionId) →
        k ∈ (objects.foldl
          (fun m item => StdMap.insert_or_assign m item.GetSessionId SyncStatus.SYNC_START)
          m).map Prod.fst) := by
  induction objects with
  | nil =>
    intro m hnd hent
    exact ⟨hnd, hent, fun k hk => hk.elim id (fun h => by cases h)⟩
  | cons a rest ih =>
    intro m hnd hent
    simp only [List.foldl_cons]
    have hrest := ih (fun o ho => hsub o (List.mem_cons_of_mem _ ho))
      (StdMap.insert_or_assign m a.GetSessionId SyncStatus.SYNC_START)
      (StdMap.nodup_insert_or_assign _ _ _ hnd)
      (fun e he => by
        rcases StdMap.mem_insert_or_assign _ _ _ e he with h1 | h1
        · rw [h1]; exact ⟨rfl, hsub a (List.mem_cons_self _ _)⟩
        · exact hent e h1)
    refine ⟨hrest.1, hrest.2.1, fun k hk => hrest.2.2 k ?_⟩
    rcases hk with hk | hk
    · exact Or.inl ((StdMap.key_mem_insert_or_assign _ _ _ _).mpr (Or.inr hk))
    · rcases List.mem_cons.mp hk with hk | hk
      · exact Or.inl ((StdMap.key_mem_insert_or_assign _ _ _ _).mpr (Or.inl hk))
      · exact Or.inr hk

theorem start_pending (objects : List DistributedObjectImpl) :
    Pending (objects.map DistributedObjectImpl.GetSessionId) (fun _ => False)
      (start objects).syncStatus ∧
    ∀ k ∈ objects.map DistributedObjectImpl.GetSessionId,
      k ∈ (start objects).syncStatus.map Prod.fst := by
  have h := initStatus_aux (objects.map DistributedObjectImpl.GetSessionId) objects
    (fun o ho => List.mem_map_of_mem _ ho) [] List.nodup_nil
    (fun e he => by cases he)
  refine ⟨⟨h.1, fun e he => Or.inr ⟨(h.2.1 e he).1, fun hf => hf, (h.2.1 e he).2⟩⟩, ?_⟩
  intro k hk
  exact h.2.2 k (Or.inr hk)

theorem first_round_settled (E : ErrorCodes) (hE : E.WF)
    (objects : List DistributedObjectImpl) (env : Nat → RoundEnv)
    (hsingle : SingleDevice E env) (hok : NoFailureReported env)
    (hreg : ∀ o ∈ objects, ∃ o' ∈ (env 0).objects_, o'.GetSessionId = o.GetSessionId) :
    Settled (objects.map DistributedObjectImpl.GetSessionId)
      (loop E env 1 (start objects)) := by
  show Settled _ (round E env 0 (start objects))
  unfold round
  apply round_tail_settled env hok 0
  obtain ⟨hpend, hkeys⟩ := start_pending objects
  have hp := foldl_syncItem_pending E hE (env 0) 0
    (objects.map DistributedObjectImpl.GetSessionId) (env 0).objects_ (hsingle 0)
    (fun _ => False) { start objects with rounds := (start objects).rounds + 1 } hpend
  refine ⟨?_, ?_, ?_⟩
  · intro e he
    rcases hp.2 e he with h1 | ⟨_, h2, h3⟩
    · exact h1
    · exfalso
      obtain ⟨o, ho, hoe⟩ := List.mem_map.mp h3
      obtain ⟨o', ho', hoo⟩ := hreg o ho
      apply h2
      right
      rw [← hoe, ← hoo]
      exact List.mem_map_of_mem _ ho'
  · intro k hk
    exact foldl_syncItem_keys E (env 0) 0 _ k _ (hkeys k hk)
  · intro r hr _
    rcases foldl_syncItem_requests E (env 0) 0 _ r _ hr with h1 | h1
    · cases h1
    · exact h1

theorem loop_settled (E : ErrorCodes) (hE : E.WF)
    (objects : List DistributedObjectImpl) (env : Nat → RoundEnv)
    (hsingle : SingleDevice E env) (hok : NoFailureReported env)
    (hreg : ∀ o ∈ objects, ∃ o' ∈ (env 0).objects_, o'.GetSessionId = o.GetSessionId)
    (n : Nat) :
    Settled (objects.map DistributedObjectImpl.GetSessionId)
      (loop E env (n + 1) (start objects)) := by
  induction n with
  | zero => exact first_round_settled E hE objects env hsingle hok hreg
  | succ n ih =>
    show Settled _ (round E env (n + 1) (loop E env (n + 1) (start objects)))
    exact round_settled E hE env hsingle hok (n + 1) _ _ ih

theorem Settled.find_success (sessions : List String) (rs : RestoreState)
    (h : Settled sessions rs) (k : String) (hk : k ∈ sessions) :
    StdMap.find rs.syncStatus k = some SyncStatus.SYNC_SUCCESS := by
  cases hf : StdMap.find rs.syncStatus k with
  | none => exact absurd (h.2.1 k hk) ((StdMap.find_eq_none_iff _ _).mp hf)
  | some v =>
    have hv := h.1 _ (StdMap.find_mem _ _ _ hf)
    simp only at hv
    rw [hv]

end TriggerRestore

/-- Claim C10. Let a run of `TriggerRestore` start on a registry `objects` whose sessions
are all still registered in the first round, let every sync request be answered with
`ERR_SINGLE_DEVICE`, and let no completion callback report a failing device. Then at the
end of the first round every session of `objects` has status `SYNC_SUCCESS` (the whole
status map does), and in the state after any number of rounds, the finished run included,
every sync request recorded for a session of `objects` was issued in round 0; the
sessions of `objects` are still `SYNC_SUCCESS` when the run ends. -/
theorem single_device_success_in_first_round (E : ErrorCodes) (hE : E.WF)
    (objects : List DistributedObjectImpl) (env : Nat → RoundEnv)
    (hsingle : TriggerRestore.SingleDevice E env)
    (hok : TriggerRestore.NoFailureReported env)
    (hreg : ∀ o ∈ objects, ∃ o' ∈ (env 0).objects_, o'.GetSessionId = o.GetSessionId) :
    (∀ o ∈ objects,
      StdMap.find (TriggerRestore.loop E env 1 (TriggerRestore.start objects)).syncStatus
        o.GetSessionId = some SyncStatus.SYNC_SUCCESS) ∧
    TriggerRestore.isFinished
      (TriggerRestore.loop E env 1 (TriggerRestore.start objects)).syncStatus = true ∧
    (∀ n, ∀ r ∈ (TriggerRestore.loop E env n (TriggerRestore.start objects)).requests,
      r.2 ∈ objects.map DistributedObjectImpl.GetSessionId → r.1 = 0) ∧
    (∀ r ∈ (TriggerRestore.run E objects env).requests,
      r.2 ∈ objects.map DistributedObjectImpl.GetSessionId → r.1 = 0) ∧
    (∀ o ∈ objects,
      StdMap.find (TriggerRestore.run E objects env).syncStatus o.GetSessionId
        = some SyncStatus.SYNC_SUCCESS) := by
  have hloop := TriggerRestore.loop_settled E hE objects env hsingle hok hreg
  refine ⟨?_, ?_, ?_, ?_, ?_⟩
  · intro o ho
    exact TriggerRestore.Settled.find_success _ _ (hloop 0) _ (List.mem_map_of_mem _ ho)
  · exact (TriggerRestore.isFinished_iff _).mpr (hloop 0).1
  · intro n
    cases n with
    | zero => intro r hr; cases hr
    | succ n => exact (hloop n).2.2
  · exact (hloop (MAX_RETRY_SIZE - 1)).2.2
  · intro o ho
    exact TriggerRestore.Settled.find_success _ _ (hloop (MAX_RETRY_SIZE - 1)) _
      (List.mem_map_of_mem _ ho)

/-- Witness for claim C10: a registry of the two sessions "A" and "B" over an engine that
answers every sync request with the single-device status. -/
theorem single_device_success_in_first_round_witness :
    (∀ o ∈ twoSessions,
      StdMap.find
        (TriggerRestore.loop sampleCodes singleDeviceEnv 1
          (TriggerRestore.start twoSessions)).syncStatus
        o.GetSessionId = some SyncStatus.SYNC_SUCCESS) ∧
    (∀ r ∈ (TriggerRestore.run sampleCodes twoSessions singleDeviceEnv).requests,
      r.2 ∈ twoSessions.map DistributedObjectImpl.GetSessionId → r.1 = 0) :=
  ⟨(single_device_success_in_first_round sampleCodes (by decide) twoSessions singleDeviceEnv
      (fun _ _ => rfl) (fun _ _ hc => by cases hc) (by decide)).1,
    (single_device_success_in_first_round sampleCodes (by decide) twoSessions singleDeviceEnv
      (fun _ _ => rfl) (fun _ _ hc => by cases hc) (by decide)).2.2.2.1⟩

/-! ### Termination and the completion notifier -/

namespace TriggerRestore

theorem syncItem_counters (E : ErrorCodes) (env : RoundEnv) (i : Nat) (rs : RestoreState)
    (item : DistributedObjectImpl) :
    (syncItem E env i rs item).rounds = rs.rounds ∧
    (syncItem E env i rs item).sleeps = rs.sleeps ∧
    (syncItem E env i rs item).notified = rs.notified := by
  unfold syncItem
  simp only
  split <;> exact ⟨rfl, rfl, rfl⟩

theorem foldl_syncItem_counters (E : ErrorCodes) (env : RoundEnv) (i : Nat)
    (objects : List DistributedObjectImpl) :
    ∀ rs : RestoreState,
      (objects.foldl (syncItem E env i) rs).rounds = rs.rounds ∧
      (objects.foldl (syncItem E env i) rs).sleeps = rs.sleeps ∧
      (objects.foldl (syncItem E env i) rs).notified = rs.notified := by
  induction objects with
  | nil => intro rs; exact ⟨rfl, rfl, rfl⟩
  | cons a rest ih =>
    intro rs
    simp only [List.foldl_cons]
    obtain ⟨h1, h2, h3⟩ := ih (syncItem E env i rs a)
    obtain ⟨g1, g2, g3⟩ := syncItem_counters E env i rs a
    exact ⟨h1.trans g1, h2.trans g2, h3.trans g3⟩

theorem deliver_counters (rs : RestoreState)
    (completions : List (String × List (String × DBStatus))) :
    (deliver rs completions).rounds = rs.rounds ∧
    (deliver rs completions).sleeps = rs.sleeps ∧
    (deliver rs completions).notified = rs.notified := by
  unfold deliver
  induction completions generalizing rs with
  | nil => exact ⟨rfl, rfl, rfl⟩
  | cons c rest ih =>
    simp only [List.foldl_cons]
    obtain ⟨h1, h2, h3⟩ := ih { rs with syncStatus := onComplete rs.syncStatus c.1 c.2 }
    exact ⟨h1, h2, h3⟩

theorem round_counters (E : ErrorCodes) (env : Nat → RoundEnv) (i : Nat) (rs : RestoreState) :
    (round E env i rs).rounds = rs.rounds + 1 ∧
    (round E env i rs).sleeps ≤ rs.sleeps + 1 ∧
    (round E env i rs).notified = rs.notified := by
  unfold round
  simp only
  obtain ⟨f1, f2, f3⟩ := foldl_syncItem_counters E (env i) i (env i).objects_
    { rs with rounds := rs.rounds + 1 }
  obtain ⟨d1, d2, d3⟩ := deliver_counters
    ((env i).objects_.foldl (syncItem E (env i) i) { rs with rounds := rs.rounds + 1 })
    (env i).completions
  split
  · obtain ⟨l1, l2, l3⟩ := deliver_counters
      { deliver ((env i).objects_.foldl (syncItem E (env i) i)
          { rs with rounds := rs.rounds + 1 }) (env i).completions with
        sleeps := (deliver ((env i).objects_.foldl (syncItem E (env i) i)
          { rs with rounds := rs.rounds + 1 }) (env i).completions).sleeps + 1 }
      (env i).lateCompletions
    refine ⟨?_, ?_, ?_⟩
    · rw [l1]; show (deliver _ _).rounds = _; rw [d1, f1]
    · rw [l2]; show (deliver _ _).sleeps + 1 ≤ _; rw [d2, f2]
    · rw [l3]; show (deliver _ _).notified = _; rw [d3, f3]
  · obtain ⟨l1, l2, l3⟩ := deliver_counters
      (deliver ((env i).objects_.foldl (syncItem E (env i) i)
          { rs with rounds := rs.rounds + 1 }) (env i).completions)
      (env i).lateCompletions
    refine ⟨?_, ?_, ?_⟩
    · rw [l1, d1, f1]
    · rw [l2, d2, f2]; exact Nat.le_succ _
    · rw [l3, d3, f3]

theorem loop_counters (E : ErrorCodes) (env : Nat → RoundEnv) (n : Nat) (rs : RestoreState) :
    (loop E env n rs).rounds = rs.rounds + n ∧
    (loop E env n rs).sleeps ≤ rs.sleeps + n ∧
    (loop E env n rs).notified = rs.notified := by
  induction n with
  | zero => exact ⟨rfl, Nat.le_refl _, rfl⟩
  | succ n ih =>
    show (round E env n (loop E env n rs)).rounds = _ ∧
      (round E env n (loop E env n rs)).sleeps ≤ _ ∧
      (round E env n (loop E env n rs)).notified = _
    obtain ⟨r1, r2, r3⟩ := round_counters E env n (loop E env n rs)
    obtain ⟨h1, h2, h3⟩ := ih
    refine ⟨?_, ?_, ?_⟩
    · rw [r1, h1]; omega
    · omega
    · rw [r3, h3]

end TriggerRestore

theorem removeLoop_sublist (objects : List DistributedObjectImpl) (s : String) :
    (DistributedObjectStoreImpl.removeLoop objects s).Sublist objects := by
  induction objects with
  | nil => exact List.Sublist.slnil
  | cons a rest ih =>
    unfold DistributedObjectStoreImpl.removeLoop
    split
    · exact List.Sublist.cons _ ih
    · exact List.Sublist.cons₂ _ ih

theorem Call.apply_atMostOne (E : ErrorCodes) (st : DistributedObjectStoreImpl) (c : Call)
    (hc : ∀ proxy newObject s, c = Call.CreateObject proxy newObject s →
      s ∈ st.objects_.map DistributedObjectImpl.GetSessionId →
      (st.CreateObject E proxy newObject s).ret = none)
    (h : AtMostOnePerSession st) : AtMostOnePerSession (c.apply E st) := by
  unfold AtMostOnePerSession at h ⊢
  cases c with
  | CreateObject proxy newObject s =>
    show ((st.CreateObject E proxy newObject s).store.objects_.map _).Nodup
    rcases DistributedObjectStoreImpl.CreateObject_objects E st proxy newObject s with
      h1 | ⟨a, hret, h1⟩
    · rw [h1]; exact h
    · rw [h1, List.map_append]
      have hnot : s ∉ st.objects_.map DistributedObjectImpl.GetSessionId := by
        intro hmem
        have hnone := hc proxy newObject s rfl hmem
        rw [hret] at hnone
        cases hnone
      refine List.Nodup.append h (List.nodup_singleton _) ?_
      intro x hx hx'
      simp only [List.map_cons, List.map_nil, List.mem_singleton] at hx'
      exact hnot (by rw [show s = x from hx'.symm]; exact hx)
  | DeleteObject s =>
    show ((st.DeleteObject E s).store.objects_.map _).Nodup
    rcases DistributedObjectStoreImpl.DeleteObject_objects E st s with h1 | h1
    · rw [h1]; exact h
    · rw [h1]
      exact List.Nodup.sublist ((removeLoop_sublist st.objects_ s).map _) h
  | Get s => exact h
  | Watch object w =>
    show ((st.Watch E object w).store.objects_.map _).Nodup
    rw [DistributedObjectStoreImpl.Watch_objects]; exact h
  | UnWatch object =>
    show ((st.UnWatch E object).store.objects_.map _).Nodup
    rw [DistributedObjectStoreImpl.UnWatch_objects]; exact h
  | engineChange engine => exact h

theorem runCalls_take_atMostOne (E : ErrorCodes) (calls : List Call) :
    ∀ (st : DistributedObjectStoreImpl) (n : Nat),
      CreatesOnlyAbsent E st calls → AtMostOnePerSession st →
      AtMostOnePerSession (runCalls E st (calls.take n)) := by
  induction calls with
  | nil => intro st n _ h; simpa [runCalls] using h
  | cons c rest ih =>
    intro st n hc h
    cases n with
    | zero => simpa [runCalls] using h
    | succ n =>
      show AtMostOnePerSession (runCalls E (c.apply E st) (rest.take n))
      exact ih _ n hc.2 (Call.apply_atMostOne E st c hc.1 h)

/-- Counterexample to claim C12. On a fresh store (empty registry) over an engine that
accepts table creation, two `CreateObject("A")` calls both succeed and the registry then
holds two live handles of session "A". -/
theorem two_creates_two_handles_counterexample :
    freshStore.objects_ = [] ∧
    (runCalls sampleCodes freshStore createTwice).objects_ = [⟨1, "A"⟩, ⟨2, "A"⟩] ∧
    ¬ AtMostOnePerSession (runCalls sampleCodes freshStore createTwice) := by
  decide

/-- Claim C12, amended. For every sequence of calls on a store instance that starts from
an empty registry and in which no `CreateObject(s)` succeeds while a handle with session
id `s` is registered, the registry holds at most one handle per session id after each
call (after every prefix of the sequence). -/
theorem one_handle_per_session_when_recreate_refused (E : ErrorCodes)
    (st : DistributedObjectStoreImpl) (calls : List Call) (n : Nat)
    (hempty : st.objects_ = [])
    (hcalls : CreatesOnlyAbsent E st calls) :
    AtMostOnePerSession (runCalls E st (calls.take n)) := by
  apply runCalls_take_atMostOne E calls st n hcalls
  unfold AtMostOnePerSession
  rw [hempty]
  exact List.nodup_nil

/-- Witness for claim C12 as amended: create "A", create "B", delete "A", create "A"
again on a fresh store; after all four calls each session has one handle. -/
theorem one_handle_per_session_when_recreate_refused_witness :
    AtMostOnePerSession (runCalls sampleCodes freshStore (createDeleteCreate.take 4)) ∧
    (runCalls sampleCodes freshStore (createDeleteCreate.take 4)).objects_
      = [⟨2, "B"⟩, ⟨3, "A"⟩] :=
  ⟨one_handle_per_session_when_recreate_refused sampleCodes freshStore createDeleteCreate 4
      rfl (by
        refine ⟨?_, ?_, ?_, ?_, trivial⟩ <;>
        · intro proxy newObject s hc hmem
          cases hc <;> exact absurd hmem (by decide)),
    by decide⟩

/-! ### The end of the round loop -/

theorem TriggerRestore.run_rounds (E : ErrorCodes) (objects : List DistributedObjectImpl)
    (env : Nat → RoundEnv) : (TriggerRestore.run E objects env).rounds = MAX_RETRY_SIZE := by
  show (TriggerRestore.loop E env MAX_RETRY_SIZE (TriggerRestore.start objects)).rounds = _
  rw [(TriggerRestore.loop_counters E env MAX_RETRY_SIZE (TriggerRestore.start objects)).1]
  show 0 + MAX_RETRY_SIZE = MAX_RETRY_SIZE
  omega

/-- Claim C13, evaluated on a failing input. With the registry of the two sessions "A"
and "B" over the single-device engine, every session of the status map is `SYNC_SUCCESS`
at the end of round 0, and the loop goes on all the same: a second round is executed, and
the run ends only after `MAX_RETRY_SIZE` = 5000 rounds; the finished scan only spares the
sleep. -/
theorem finished_scan_does_not_end_loop :
    TriggerRestore.isFinished
      (TriggerRestore.loop sampleCodes singleDeviceEnv 1
        (TriggerRestore.start twoSessions)).syncStatus = true ∧
    (TriggerRestore.loop sampleCodes singleDeviceEnv 1
      (TriggerRestore.start twoSessions)).rounds = 1 ∧
    (TriggerRestore.loop sampleCodes singleDeviceEnv 2
      (TriggerRestore.start twoSessions)).rounds = 2 ∧
    (TriggerRestore.loop sampleCodes singleDeviceEnv 2
      (TriggerRestore.start twoSessions)).sleeps = 0 ∧
    (TriggerRestore.loop sampleCodes singleDeviceEnv 2
      (TriggerRestore.start twoSessions)).notified = 0 ∧
    (TriggerRestore.run sampleCodes twoSessions singleDeviceEnv).rounds = 5000 := by
  refine ⟨by decide, by rfl, by rfl, by rfl, by rfl, ?_⟩
  rw [TriggerRestore.run_rounds]
  rfl

/-! ### The completion callback -/

namespace StdMap

variable {κ : Type} {ν : Type} [DecidableEq κ]

theorem find_insert_or_assign_of_ne (m : List (κ × ν)) (k k' : κ) (v : ν) (h : k' ≠ k) :
    find (insert_or_assign m k v) k' = find m k' := by
  induction m with
  | nil =>
    have hk : ¬ k = k' := fun e => h e.symm
    simp [insert_or_assign, find, hk]
  | cons a rest ih =>
    unfold insert_or_assign
    by_cases ha : a.1 = k
    · have hk : ¬ k = k' := fun e => h e.symm
      have ha' : ¬ a.1 = k' := fun e => h (e.symm.trans ha)
      simp [ha, find, hk, ha']
    · rw [if_neg ha]
      simp only [find]
      rw [ih]

end StdMap

namespace TriggerRestore

theorem onCompleteResult_foldl (devices : List (String × DBStatus)) (acc : SyncStatus) :
    devices.foldl
      (fun result device =>
        if device.2 ≠ DistributedDB.OK then SyncStatus.SYNC_FAIL else result) acc
      = if ∃ d ∈ devices, d.2 ≠ DistributedDB.OK then SyncStatus.SYNC_FAIL else acc := by
  induction devices generalizing acc with
  | nil => simp
  | cons d rest ih =>
    simp only [List.foldl_cons]
    rw [ih]
    by_cases hd : d.2 ≠ DistributedDB.OK
    · have h1 : ∃ x ∈ d :: rest, x.2 ≠ DistributedDB.OK := ⟨d, List.mem_cons_self _ _, hd⟩
      rw [if_pos hd, if_pos h1]
      split <;> rfl
    · rw [if_neg hd]
      by_cases hr : ∃ x ∈ rest, x.2 ≠ DistributedDB.OK
      · obtain ⟨x, hx, hne⟩ := hr
        have h1 : ∃ x ∈ d :: rest, x.2 ≠ DistributedDB.OK :=
          ⟨x, List.mem_cons_of_mem _ hx, hne⟩
        rw [if_pos ⟨x, hx, hne⟩, if_pos h1]
      · have h1 : ¬ ∃ x ∈ d :: rest, x.2 ≠ DistributedDB.OK := by
          rintro ⟨x, hx, hne⟩
          rcases List.mem_cons.mp hx with hx | hx
          · exact hd (hx ▸ hne)
          · exact hr ⟨x, hx, hne⟩
        rw [if_neg hr, if_neg h1]

end TriggerRestore

/-- Claim C14. The completion callback of the session `sessionId`, invoked with the
per-device status map `devices`, sets the status of `sessionId` to `SYNC_SUCCESS` when
every device reports OK (the empty map included) and to `SYNC_FAIL` when some device
reports another status, and the status of every other session, tracked or not, is what
it was. -/
theorem callback_aggregates_device_statuses (syncStatus : List (String × SyncStatus))
    (sessionId : String) (devices : List (String × DBStatus)) :
    ((∀ d ∈ devices, d.2 = DistributedDB.OK) →
      StdMap.find (TriggerRestore.onComplete syncStatus sessionId devices) sessionId
        = some SyncStatus.SYNC_SUCCESS) ∧
    StdMap.find (TriggerRestore.onComplete syncStatus sessionId []) sessionId
      = some SyncStatus.SYNC_SUCCESS ∧
    ((∃ d ∈ devices, d.2 ≠ DistributedDB.OK) →
      StdMap.find (TriggerRestore.onComplete syncStatus sessionId devices) sessionId
        = some SyncStatus.SYNC_FAIL) ∧
    (∀ other, other ≠ sessionId →
      StdMap.find (TriggerRestore.onComplete syncStatus sessionId devices) other
        = StdMap.find syncStatus other) := by
  refine ⟨?_, ?_, ?_, ?_⟩
  · intro hall
    unfold TriggerRestore.onComplete
    rw [StdMap.find_insert_or_assign_self, TriggerRestore.onCompleteResult_ok devices hall]
  · unfold TriggerRestore.onComplete
    rw [StdMap.find_insert_or_assign_self]
    rfl
  · intro hex
    unfold TriggerRestore.onComplete
    rw [StdMap.find_insert_or_assign_self]
    unfold TriggerRestore.onCompleteResult
    rw [TriggerRestore.onCompleteResult_foldl, if_pos hex]
  · intro other hne
    unfold TriggerRestore.onComplete
    exact StdMap.find_insert_or_assign_of_ne _ _ _ _ hne

/-! ### The request phase of a round -/

namespace TriggerRestore

theorem statusRead_eq (m : List (String × SyncStatus)) (s : String) :
    statusRead m s = (StdMap.find m s).getD SyncStatus.SYNC_START := by
  unfold statusRead StdMap.subscript
  cases StdMap.find m s <;> rfl

theorem syncItem_find_other (E : ErrorCodes) (env : RoundEnv) (i : Nat) (rs : RestoreState)
    (item : DistributedObjectImpl) (t : String) (ht : t ≠ item.GetSessionId) :
    StdMap.find (syncItem E env i rs item).syncStatus t = StdMap.find rs.syncStatus t := by
  have hsub : StdMap.find (StdMap.subscript rs.syncStatus item.GetSessionId
      SyncStatus.SYNC_START).2 t = StdMap.find rs.syncStatus t := by
    unfold StdMap.subscript
    cases StdMap.find rs.syncStatus item.GetSessionId with
    | none => exact StdMap.find_insert_or_assign_of_ne _ _ _ _ ht
    | some v => rfl
  unfold syncItem
  simp only
  split
  · simp only
    split
    · rw [StdMap.find_insert_or_assign_of_ne _ _ _ _ ht, hsub]
    · split
      · rw [StdMap.find_insert_or_assign_of_ne _ _ _ _ ht, hsub]
      · exact hsub
  · exact hsub

theorem syncItem_issue (E : ErrorCodes) (env : RoundEnv) (i : Nat) (rs : RestoreState)
    (item : DistributedObjectImpl)
    (h : statusRead rs.syncStatus item.GetSessionId = SyncStatus.SYNC_START ∨
      statusRead rs.syncStatus item.GetSessionId = SyncStatus.SYNC_FAIL) :
    (syncItem E env i rs item).requests = rs.requests ++ [(i, item.GetSessionId)] := by
  have hc : (StdMap.subscript rs.syncStatus item.GetSessionId SyncStatus.SYNC_START).1
        ≠ SyncStatus.SYNC_SUCCESS ∧
      (StdMap.subscript rs.syncStatus item.GetSessionId SyncStatus.SYNC_START).1
        ≠ SyncStatus.SYNCING := by
    unfold statusRead at h
    rcases h with h | h <;> rw [h] <;> decide
  unfold syncItem
  simp only
  rw [if_pos hc]

theorem syncItem_skip (E : ErrorCodes) (env : RoundEnv) (i : Nat) (rs : RestoreState)
    (item : DistributedObjectImpl)
    (h : ¬ (statusRead rs.syncStatus item.GetSessionId = SyncStatus.SYNC_START ∨
      statusRead rs.syncStatus item.GetSessionId = SyncStatus.SYNC_FAIL)) :
    (syncItem E env i rs item).requests = rs.requests ∧
    (syncItem E env i rs item).syncStatus = rs.syncStatus := by
  have hread := statusRead_eq rs.syncStatus item.GetSessionId
  unfold syncItem StdMap.subscript
  cases hf : StdMap.find rs.syncStatus item.GetSessionId with
  | none =>
    rw [hf] at hread
    exact absurd (Or.inl hread) h
  | some v =>
    rw [hf] at hread
    have hv : ¬ (v ≠ SyncStatus.SYNC_SUCCESS ∧ v ≠ SyncStatus.SYNCING) := by
      intro hv
      apply h
      rw [hread]
      simp only [Option.getD_some]
      cases v with
      | SYNC_START => exact Or.inl rfl
      | SYNCING => exact absurd rfl hv.2
      | SYNC_SUCCESS => exact absurd rfl hv.1
      | SYNC_FAIL => exact Or.inr rfl
    simp only
    rw [if_neg hv]
    exact ⟨rfl, rfl⟩

theorem syncItem_key_self (E : ErrorCodes) (env : RoundEnv) (i : Nat) (rs : RestoreState)
    (item : DistributedObjectImpl) :
    item.GetSessionId ∈ (syncItem E env i rs item).syncStatus.map Prod.fst := by
  have hsub : item.GetSessionId ∈ (StdMap.subscript rs.syncStatus item.GetSessionId
      SyncStatus.SYNC_START).2.map Prod.fst := by
    unfold StdMap.subscript
    cases hf : StdMap.find rs.syncStatus item.GetSessionId with
    | none => exact (StdMap.key_mem_insert_or_assign _ _ _ _).mpr (Or.inl rfl)
    | some v =>
      by_contra hk
      rw [← StdMap.find_eq_none_iff, hf] at hk
      cases hk
  unfold syncItem
  simp only
  split
  · simp only
    split
    · exact (StdMap.key_mem_insert_or_assign _ _ _ _).mpr (Or.inl rfl)
    · split
      · exact (StdMap.key_mem_insert_or_assign _ _ _ _).mpr (Or.inl rfl)
      · exact hsub
  · exact hsub

theorem syncItem_requests_mono (E : ErrorCodes) (env : RoundEnv) (i : Nat)
    (rs : RestoreState) (item : DistributedObjectImpl) (r : Nat × String)
    (h : r ∈ rs.requests) : r ∈ (syncItem E env i rs item).requests := by
  by_cases hc : statusRead rs.syncStatus item.GetSessionId = SyncStatus.SYNC_START ∨
      statusRead rs.syncStatus item.GetSessionId = SyncStatus.SYNC_FAIL
  · rw [syncItem_issue E env i rs item hc]
    exact List.mem_append_left _ h
  · rw [(syncItem_skip E env i rs item hc).1]
    exact h

theorem foldl_syncItem_requests_mono (E : ErrorCodes) (env : RoundEnv) (i : Nat)
    (objects : List DistributedObjectImpl) (r : Nat × String) :
    ∀ rs : RestoreState, r ∈ rs.requests →
      r ∈ (objects.foldl (syncItem E env i) rs).requests := by
  induction objects with
  | nil => intro rs h; exact h
  | cons a rest ih =>
    intro rs h
    simp only [List.foldl_cons]
    exact ih _ (syncItem_requests_mono E env i rs a r h)

theorem foldl_syncItem_absent (E : ErrorCodes) (env : RoundEnv) (i : Nat) (s : String)
    (objects : List DistributedObjectImpl) :
    ∀ rs : RestoreState, StdMap.find rs.syncStatus s = none →
      (∃ o ∈ objects, o.GetSessionId = s) →
      (i, s) ∈ (objects.foldl (syncItem E env i) rs).requests ∧
      s ∈ (objects.foldl (syncItem E env i) rs).syncStatus.map Prod.fst := by
  induction objects with
  | nil => intro rs _ h; obtain ⟨o, ho, _⟩ := h; cases ho
  | cons a rest ih =>
    intro rs habsent hmem
    simp only [List.foldl_cons]
    by_cases ha : a.GetSessionId = s
    · have hread : statusRead rs.syncStatus a.GetSessionId = SyncStatus.SYNC_START := by
        rw [statusRead_eq, ha, habsent]; rfl
      have hreq : (i, s) ∈ (syncItem E env i rs a).requests := by
        rw [syncItem_issue E env i rs a (Or.inl hread), ha]
        exact List.mem_append_right _ (List.mem_singleton_self _)
      have hkey : s ∈ (syncItem E env i rs a).syncStatus.map Prod.fst := by
        have := syncItem_key_self E env i rs a
        rwa [ha] at this
      exact ⟨foldl_syncItem_requests_mono E env i rest _ _ hreq,
        foldl_syncItem_keys E env i rest s _ hkey⟩
    · apply ih
      · rw [syncItem_find_other E env i rs a s (fun e => ha e.symm)]
        exact habsent
      · obtain ⟨o, ho, hs⟩ := hmem
        rcases List.mem_cons.mp ho with ho | ho
        · exact absurd (ho ▸ hs) ha
        · exact ⟨o, ho, hs⟩

end TriggerRestore

/-- Counterexample to claim C15. The run starts on a registry holding session "A" only,
so its status map has no entry for "B"; the handle of "B" is in the registry from round 1
on. After two rounds a sync request for "B" has been issued in round 1 and the status map
has an entry for "B". -/
theorem late_session_is_tracked_counterexample :
    StdMap.find (TriggerRestore.start [handleA]).syncStatus "B" = none ∧
    (lateJoinEnv 0).objects_ = [handleA] ∧
    (1, "B") ∈ (TriggerRestore.loop sampleCodes lateJoinEnv 2
      (TriggerRestore.start [handleA])).requests ∧
    StdMap.find (TriggerRestore.loop sampleCodes lateJoinEnv 2
      (TriggerRestore.start [handleA])).syncStatus "B" = some SyncStatus.SYNCING := by
  decide

/-- Claim C15, amended. A session that has no entry in the status map when round `i`
begins and whose handle is in the registry during that round (a handle added after the
map was initialised) is picked up by the round: a sync request for it is issued in round
`i` and the status map has an entry for it when the round ends. -/
theorem late_session_is_picked_up (E : ErrorCodes) (env : Nat → RoundEnv) (i : Nat)
    (rs : RestoreState) (item : DistributedObjectImpl)
    (hreg : item ∈ (env i).objects_)
    (habsent : StdMap.find rs.syncStatus item.GetSessionId = none) :
    (i, item.GetSessionId) ∈ (TriggerRestore.round E env i rs).requests ∧
    item.GetSessionId ∈ (TriggerRestore.round E env i rs).syncStatus.map Prod.fst := by
  obtain ⟨hreq, hkey⟩ := TriggerRestore.foldl_syncItem_absent E (env i) i item.GetSessionId
    (env i).objects_ { rs with rounds := rs.rounds + 1 } habsent ⟨item, hreg, rfl⟩
  unfold TriggerRestore.round
  simp only
  constructor
  · rw [TriggerRestore.deliver_requests]
    split
    · show (i, item.GetSessionId) ∈ (TriggerRestore.deliver _ _).requests
      rw [TriggerRestore.deliver_requests]; exact hreq
    · rw [TriggerRestore.deliver_requests]; exact hreq
  · apply TriggerRestore.deliver_keys
    split
    · exact TriggerRestore.deliver_keys _ _ _ hkey
    · exact TriggerRestore.deliver_keys _ _ _ hkey

/-- Witness for claim C15 as amended: session "B", absent from the status map after
round 0 and registered in round 1, is requested in round 1. -/
theorem late_session_is_picked_up_witness :
    (1, "B") ∈ (TriggerRestore.round sampleCodes lateJoinEnv 1
      (TriggerRestore.loop sampleCodes lateJoinEnv 1
        (TriggerRestore.start [handleA]))).requests ∧
    "B" ∈ (TriggerRestore.round sampleCodes lateJoinEnv 1
      (TriggerRestore.loop sampleCodes lateJoinEnv 1
        (TriggerRestore.start [handleA]))).syncStatus.map Prod.fst :=
  late_session_is_picked_up sampleCodes lateJoinEnv 1
    (TriggerRestore.loop sampleCodes lateJoinEnv 1 (TriggerRestore.start [handleA]))
    ⟨2, "B"⟩ (by decide) (by decide)

namespace TriggerRestore

theorem statusRead_congr (m m' : List (String × SyncStatus)) (t : String)
    (h : StdMap.find m' t = StdMap.find m t) : statusRead m' t = statusRead m t := by
  rw [statusRead_eq, statusRead_eq, h]

theorem foldl_syncItem_spec (E : ErrorCodes) (env : RoundEnv) (i : Nat)
    (objects : List DistributedObjectImpl) :
    ∀ rs : RestoreState, ∃ issued : List (Nat × String),
      (objects.foldl (syncItem E env i) rs).requests = rs.requests ++ issued ∧
      (∀ r ∈ issued, r.1 = i) ∧
      (∀ t, (i, t) ∈ issued ↔
        t ∈ objects.map DistributedObjectImpl.GetSessionId ∧ StartOrFail rs.syncStatus t) ∧
      (∀ t, ¬ StartOrFail rs.syncStatus t →
        StdMap.find (objects.foldl (syncItem E env i) rs).syncStatus t
          = StdMap.find rs.syncStatus t) := by
  induction objects with
  | nil =>
    intro rs
    refine ⟨[], (List.append_nil _).symm, fun r hr => absurd hr (List.not_mem_nil r),
      fun t => ?_, fun t _ => rfl⟩
    constructor
    · intro h; cases h
    · rintro ⟨h, _⟩; cases h
  | cons a rest ih =>
    intro rs
    obtain ⟨issued, hreq, hidx, hiff, hkeep⟩ := ih (syncItem E env i rs a)
    simp only [List.foldl_cons]
    by_cases hc : StartOrFail rs.syncStatus a.GetSessionId
    · have hother : ∀ t, t ≠ a.GetSessionId →
          (StartOrFail (syncItem E env i rs a).syncStatus t ↔ StartOrFail rs.syncStatus t) := by
        intro t ht
        unfold StartOrFail
        rw [statusRead_congr _ _ t (syncItem_find_other E env i rs a t ht)]
      refine ⟨(i, a.GetSessionId) :: issued, ?_, ?_, ?_, ?_⟩
      · rw [hreq, syncItem_issue E env i rs a hc, List.append_assoc]
        rfl
      · intro r hr
        rcases List.mem_cons.mp hr with h1 | h1
        · rw [h1]
        · exact hidx r h1
      · intro t
        constructor
        · intro h
          rcases List.mem_cons.mp h with h1 | h1
          · have ht : t = a.GetSessionId := (Prod.mk.inj h1).2
            rw [ht]
            exact ⟨List.mem_map_of_mem _ (List.mem_cons_self _ _), hc⟩
          · by_cases ht : t = a.GetSessionId
            · rw [ht]
              exact ⟨List.mem_map_of_mem _ (List.mem_cons_self _ _), hc⟩
            · obtain ⟨hm, hs⟩ := (hiff t).mp h1
              refine ⟨?_, (hother t ht).mp hs⟩
              rw [List.map_cons]
              exact List.mem_cons_of_mem _ hm
        · rintro ⟨hm, hs⟩
          by_cases ht : t = a.GetSessionId
          · rw [ht]; exact List.mem_cons_self _ _
          · rw [List.map_cons] at hm
            rcases List.mem_cons.mp hm with hm | hm
            · exact absurd hm ht
            · exact List.mem_cons_of_mem _ ((hiff t).mpr ⟨hm, (hother t ht).mpr hs⟩)
      · intro t hns
        have ht : t ≠ a.GetSessionId := fun e => hns (e ▸ hc)
        rw [hkeep t (fun h => hns ((hother t ht).mp h))]
        exact syncItem_find_other E env i rs a t ht
    · obtain ⟨hr0, hm0⟩ := syncItem_skip E env i rs a hc
      rw [hm0] at hiff hkeep
      refine ⟨issued, ?_, hidx, ?_, ?_⟩
      · rw [hreq, hr0]
      · intro t
        constructor
        · intro h
          obtain ⟨hm, hs⟩ := (hiff t).mp h
          refine ⟨?_, hs⟩
          rw [List.map_cons]
          exact List.mem_cons_of_mem _ hm
        · rintro ⟨hm, hs⟩
          rw [List.map_cons] at hm
          rcases List.mem_cons.mp hm with hm | hm
          · exact absurd (hm ▸ hs) hc
          · exact (hiff t).mpr ⟨hm, hs⟩
      · intro t hns
        rw [hkeep t hns]

theorem round_requests (E : ErrorCodes) (env : Nat → RoundEnv) (i : Nat)
    (rs : RestoreState) :
    (round E env i rs).requests
      = (requestPhase E (env i) i { rs with rounds := rs.rounds + 1 }).requests := by
  unfold round requestPhase
  simp only
  rw [deliver_requests]
  split
  · show (deliver _ _).requests = _
    rw [deliver_requests]
  · rw [deliver_requests]

theorem not_startOrFail (m : List (String × SyncStatus)) (s : String)
    (h : statusRead m s = SyncStatus.SYNC_SUCCESS ∨ statusRead m s = SyncStatus.SYNCING) :
    ¬ StartOrFail m s := by
  unfold StartOrFail
  rcases h with h | h <;> rw [h] <;> decide

end TriggerRestore

/-- Claim C16. In round `i` of a run, started with the status map and request log of
`rs`, the requests the round adds to the log (`issued`, all with round index `i`) are
exactly those for the sessions that have a handle in the registry during the round and
whose status, as `syncStatus[id]` reads it at the start of the round, is `SYNC_START` or
`SYNC_FAIL`; in particular a registered session marked `SYNC_FAIL` is requested again. A
session whose status is `SYNC_SUCCESS` or `SYNCING` gets no request and its entry in the
status map is the same after the request phase. -/
theorem round_requests_exactly_start_or_fail (E : ErrorCodes) (env : Nat → RoundEnv)
    (i : Nat) (rs : RestoreState) :
    ∃ issued : List (Nat × String),
      (TriggerRestore.round E env i rs).requests = rs.requests ++ issued ∧
      (∀ r ∈ issued, r.1 = i) ∧
      (∀ s, (i, s) ∈ issued ↔
        s ∈ (env i).objects_.map DistributedObjectImpl.GetSessionId ∧
        (TriggerRestore.statusRead rs.syncStatus s = SyncStatus.SYNC_START ∨
          TriggerRestore.statusRead rs.syncStatus s = SyncStatus.SYNC_FAIL)) ∧
      (∀ s, s ∈ (env i).objects_.map DistributedObjectImpl.GetSessionId →
        StdMap.find rs.syncStatus s = some SyncStatus.SYNC_FAIL → (i, s) ∈ issued) ∧
      (∀ s, (TriggerRestore.statusRead rs.syncStatus s = SyncStatus.SYNC_SUCCESS ∨
          TriggerRestore.statusRead rs.syncStatus s = SyncStatus.SYNCING) →
        (i, s) ∉ issued ∧
        StdMap.find
          (TriggerRestore.requestPhase E (env i) i
            { rs with rounds := rs.rounds + 1 }).syncStatus s
          = StdMap.find rs.syncStatus s) := by
  obtain ⟨issued, hreq, hidx, hiff, hkeep⟩ :=
    TriggerRestore.foldl_syncItem_spec E (env i) i (env i).objects_
      { rs with rounds := rs.rounds + 1 }
  refine ⟨issued, ?_, hidx, hiff, ?_, ?_⟩
  · rw [TriggerRestore.round_requests]
    exact hreq
  · intro s hs hfail
    refine (hiff s).mpr ⟨hs, Or.inr ?_⟩
    show TriggerRestore.statusRead rs.syncStatus s = SyncStatus.SYNC_FAIL
    rw [TriggerRestore.statusRead_eq, hfail]
    rfl
  · intro s hs
    have hns := TriggerRestore.not_startOrFail rs.syncStatus s hs
    exact ⟨fun hmem => hns ((hiff s).mp hmem).2, hkeep s hns⟩

/-! ## `StringUtils::Join` -/

namespace StringUtils

theorem append_isEmpty_false (a b : String) (h : a.isEmpty = false) :
    (a ++ b).isEmpty = false := by
  cases hab : (a ++ b).isEmpty with
  | false => rfl
  | true =>
    exfalso
    have he : a ++ b = "" := (String.isEmpty_iff _).mp hab
    have hd : (a ++ b).data = [] := by rw [he]
    rw [String.data_append] at hd
    have ha : a = "" := String.ext (List.append_eq_nil.mp hd).1
    rw [ha] at h
    cases h

theorem plainJoin_append_head (separator a b : String) (rest : List String) :
    plainJoin separator ((a ++ b) :: rest) = a ++ plainJoin separator (b :: rest) := by
  cases rest with
  | nil => rfl
  | cons z rest =>
    show a ++ b ++ separator ++ plainJoin separator (z :: rest)
      = a ++ (b ++ separator ++ plainJoin separator (z :: rest))
    simp only [String.append_assoc]

theorem foldl_join_nonempty (separator : String) (items : List String) :
    ∀ stream : String, stream.isEmpty = false →
      items.foldl
        (fun stream item =>
          if stream.isEmpty then stream ++ item else stream ++ separator ++ item) stream
        = plainJoin separator (stream :: items) := by
  induction items with
  | nil => intro stream _; rfl
  | cons y rest ih =>
    intro stream hne
    simp only [List.foldl_cons, hne, Bool.false_eq_true, if_false]
    rw [ih _ (append_isEmpty_false _ _ (append_isEmpty_false _ _ hne))]
    rw [plainJoin_append_head]
    rfl

theorem foldl_join_empty (separator : String) (items : List String) :
    items.foldl
      (fun stream item =>
        if stream.isEmpty then stream ++ item else stream ++ separator ++ item) ""
      = plainJoin separator (dropLeadingEmpty items) := by
  induction items with
  | nil => rfl
  | cons x rest ih =>
    have h0 : ("" : String).isEmpty = true := rfl
    simp only [List.foldl_cons, h0, if_true, String.empty_append]
    cases hx : x.isEmpty with
    | true =>
      have hx' : x = "" := (String.isEmpty_iff _).mp hx
      have hdrop : dropLeadingEmpty (x :: rest) = dropLeadingEmpty rest := by
        unfold dropLeadingEmpty
        simp [List.dropWhile, hx]
      rw [hdrop, hx']
      exact ih
    | false =>
      have hdrop : dropLeadingEmpty (x :: rest) = x :: rest := by
        unfold dropLeadingEmpty
        simp [List.dropWhile, hx]
      rw [hdrop]
      exact foldl_join_nonempty separator rest x hx

end StringUtils

/-- Claim C17. For every separator and every list of items, `Join(separator, items)` is
the plain separator-joining of the list from which the leading empty items have been
dropped; it is the plain separator-joining of `items` itself whenever the first item is
not empty, and leading empty items contribute nothing: `Join` of `"" :: items` is `Join`
of `items`. -/
theorem join_is_plain_join_without_leading_empty (separator : String)
    (items : List String) :
    StringUtils.Join separator items
      = StringUtils.plainJoin separator (StringUtils.dropLeadingEmpty items) ∧
    (∀ first rest, items = first :: rest → first.isEmpty = false →
      StringUtils.Join separator items = StringUtils.plainJoin separator items) ∧
    StringUtils.Join separator ("" :: items) = StringUtils.Join separator items := by
  refine ⟨StringUtils.foldl_join_empty separator items, ?_, ?_⟩
  · intro first rest hitems hfirst
    have h := StringUtils.foldl_join_empty separator items
    have hdrop : StringUtils.dropLeadingEmpty items = items := by
      rw [hitems]
      unfold StringUtils.dropLeadingEmpty
      simp [List.dropWhile, hfirst]
    unfold StringUtils.Join
    rw [h, hdrop]
  · unfold StringUtils.Join
    rw [StringUtils.foldl_join_empty, StringUtils.foldl_join_empty]
    unfold StringUtils.dropLeadingEmpty
    have h0 : ("" : String).isEmpty = true := rfl
    simp [List.dropWhile, h0]

/-! ### Termination and the notifier, with the lock made explicit -/

namespace TriggerRestore

end TriggerRestore

end OHOS.ObjectStore
